import Mathlib

/-!
Verification of the pattern.h backtracking pattern matcher (Lua-style patterns in C).

Shallow embedding conventions:
- Bytes are modelled as natural numbers (the C code works on 8-bit characters;
  the ctype classification functions are modelled for the C locale / ASCII).
- The input buffer and the pattern are lists of bytes.  C pointers into them
  become natural-number offsets.  The pattern is a NUL-terminated C string, so
  reading the pattern at or past its end yields the byte 0 (function pget).
- The C Pattern_State is modelled by PState.  The fixed-capacity capture array
  together with its live count is modelled as a list holding exactly the live
  slots (push = append, pop of the last slot = dropLast); slots at or beyond
  capture_count are never read by the C code, so the list abstraction is exact.
- Functions that mutate the state and return a pointer (or NULL) become
  functions returning PState × Option Nat.
- The bounds hypotheses (pi < p.length and the like) carried by the recursive
  matching functions express that the pattern byte currently dispatched on is a
  real byte of the pattern (true at every C call site, where the dispatching
  switch has just read a non-NUL byte); they are used for termination only.
-/

/-! ## Byte classification (ctype.h, C locale, ASCII) -/

def isdigitB (c : Nat) : Bool := 48 ≤ c && c ≤ 57

def isalphaB (c : Nat) : Bool := (65 ≤ c && c ≤ 90) || (97 ≤ c && c ≤ 122)

def iscntrlB (c : Nat) : Bool := c < 32 || c == 127

def islowerB (c : Nat) : Bool := 97 ≤ c && c ≤ 122

def isupperB (c : Nat) : Bool := 65 ≤ c && c ≤ 90

def ispunctB (c : Nat) : Bool :=
  (33 ≤ c && c ≤ 47) || (58 ≤ c && c ≤ 64) || (91 ≤ c && c ≤ 96) || (123 ≤ c && c ≤ 126)

def isspaceB (c : Nat) : Bool := c == 32 || (9 ≤ c && c ≤ 13)

def isalnumB (c : Nat) : Bool := isalphaB c || isdigitB c

def isxdigitB (c : Nat) : Bool := isdigitB c || (65 ≤ c && c ≤ 70) || (97 ≤ c && c ≤ 102)

def isprintB (c : Nat) : Bool := 32 ≤ c && c ≤ 126

def tolowerB (c : Nat) : Nat := if 65 ≤ c && c ≤ 90 then c + 32 else c

/-! ## Access to the pattern and the input -/

/-- Read a pattern byte: the pattern is NUL-terminated, reading at or past its
end gives 0. -/
def pget (p : List Nat) (i : Nat) : Nat := p.getD i 0

/-- Read an input byte (reads are always guarded by bounds checks in the C
code; out of range reads give 0 here to stay total). -/
def sget (s : List Nat) (i : Nat) : Nat := s.getD i 0

theorem pget_lt_length {p : List Nat} {i : Nat} (h : pget p i ≠ 0) : i < p.length := by
  by_contra hc
  push_neg at hc
  exact h (List.getD_eq_default _ _ hc)

/-! ## Errors, captures and the matching state -/

/-- Pattern_Error from pattern.h. -/
inductive PError where
  | none
  | maxCaptures
  | unexpectedCaptureClose
  | unclosedCapture
  | invalidCaptureIdx
  | incompleteEscape
  | unclosedClass
  | invalidBalancedPattern
  | unclosedFrontierPattern
deriving DecidableEq, Repr

/-- Pattern_Status from pattern.h. -/
inductive PStatus where
  | no_match
  | matched
  | error
deriving DecidableEq, Repr

/-- One capture slot: data pointer (as an offset into the input) and size.
size = -1 is PATTERN_CAPTURE_UNFINISHED, size = -2 is PATTERN_CAPTURE_POSITION. -/
@[ext]
structure Cap where
  start : Nat
  size : Int
deriving DecidableEq, Repr

/-- PATTERN_MAX_CAPTURES (default build configuration). -/
def PATTERN_MAX_CAPTURES : Nat := 31

/-- Pattern_State: latched error, its pattern offset, and the live capture
slots (the list length is the C capture_count). -/
@[ext]
structure PState where
  error : PError
  error_loc : Nat
  captures : List Cap
deriving DecidableEq, Repr

/-- pattern_set_error: latch an error unless one is already latched. -/
def pattern_set_error (ps : PState) (err : PError) (loc : Nat) : PState :=
  if ps.error = PError.none then { ps with error := err, error_loc := loc } else ps

/-! ## Class matching (pattern_match_class and friends) -/

/-- The final negation step of pattern_match_class: uppercase class letters
denote the negated class. -/
def pattern_class_res (cls : Nat) (res : Bool) : Bool :=
  if isupperB cls then !res else res

/-- pattern_match_class: match byte c against a one-letter class (or, for any
other byte cls, against the literal byte cls). -/
def pattern_match_class (c cls : Nat) : Bool :=
  if tolowerB cls = 97 then pattern_class_res cls (isalphaB c)
  else if tolowerB cls = 99 then pattern_class_res cls (iscntrlB c)
  else if tolowerB cls = 100 then pattern_class_res cls (isdigitB c)
  else if tolowerB cls = 108 then pattern_class_res cls (islowerB c)
  else if tolowerB cls = 112 then pattern_class_res cls (ispunctB c)
  else if tolowerB cls = 115 then pattern_class_res cls (isspaceB c)
  else if tolowerB cls = 117 then pattern_class_res cls (isupperB c)
  else if tolowerB cls = 119 then pattern_class_res cls (isalnumB c)
  else if tolowerB cls = 120 then pattern_class_res cls (isxdigitB c)
  else if tolowerB cls = 103 then pattern_class_res cls (isprintB c && !isspaceB c)
  else if tolowerB cls = 122 then pattern_class_res cls (c == 0)
  else decide (c = cls)

/-- The scanning loop of pattern_match_custom_class.  ptr is the value of the
C pattern_ptr before the ++ of the while header; ce is the class_end position
(the closing bracket), members lie strictly before it. -/
def pattern_custom_class_loop (c : Nat) (p : List Nat) (ret : Bool) (ptr ce : Nat) : Bool :=
  if h : ptr + 1 < ce then
    if pget p (ptr + 1) = 37 then
      if pattern_match_class c (pget p (ptr + 2)) then ret
      else pattern_custom_class_loop c p ret (ptr + 2) ce
    else if pget p (ptr + 2) = 45 ∧ ptr + 3 < ce then
      if pget p (ptr + 1) ≤ c ∧ c ≤ pget p (ptr + 3) then ret
      else pattern_custom_class_loop c p ret (ptr + 3) ce
    else if pget p (ptr + 1) = c then ret
    else pattern_custom_class_loop c p ret (ptr + 1) ce
  else !ret
termination_by ce - ptr
decreasing_by all_goals omega

/-- pattern_match_custom_class: match byte c against a bracket expression
starting at ptr (the opening bracket) with closing bracket at ce. -/
def pattern_match_custom_class (c : Nat) (p : List Nat) (ptr ce : Nat) : Bool :=
  if pget p (ptr + 1) = 94 then pattern_custom_class_loop c p false (ptr + 1) ce
  else pattern_custom_class_loop c p true ptr ce

/-- pattern_match_class_or_char: match byte c against the atom starting at
ptr, whose syntactic end (one past the atom) is ce. -/
def pattern_match_class_or_char (c : Nat) (p : List Nat) (ptr ce : Nat) : Bool :=
  if pget p ptr = 46 then true
  else if pget p ptr = 37 then pattern_match_class c (pget p (ptr + 1))
  else if pget p ptr = 91 then pattern_match_custom_class c p ptr (ce - 1)
  else decide (c = pget p ptr)

/-! ## Class-span scanning (pattern_find_class_end) -/

/-- One pointer advance of the bracket-scanning do-while loop in
pattern_find_class_end: step over an escape pair, else over one byte. -/
def pattern_class_adv (p : List Nat) (j : Nat) : Nat :=
  if pget p j = 37 ∧ pget p (j + 1) ≠ 0 then j + 2 else j + 1

theorem pattern_class_adv_gt (p : List Nat) (j : Nat) :
    j < pattern_class_adv p j ∧ pattern_class_adv p j ≤ j + 2 := by
  unfold pattern_class_adv
  split <;> omega

/-- The bracket-scanning do-while loop of pattern_find_class_end.  clsStart is
the position of the opening bracket (for the error location). -/
def pattern_class_end_loop (p : List Nat) (clsStart : Nat) (ps : PState) (j : Nat) :
    PState × Option Nat :=
  if h : pget p j = 0 then (pattern_set_error ps PError.unclosedClass clsStart, none)
  else if pget p (pattern_class_adv p j) = 93 then (ps, some (pattern_class_adv p j + 1))
  else pattern_class_end_loop p clsStart ps (pattern_class_adv p j)
termination_by p.length - j
decreasing_by
  have h1 := pget_lt_length h
  have h2 := pattern_class_adv_gt p j
  omega

/-- pattern_find_class_end: find the position one past the atom starting at
pi (handling escapes and bracket expressions), or latch an error. -/
def pattern_find_class_end (p : List Nat) (ps : PState) (pi : Nat) : PState × Option Nat :=
  if pget p pi = 37 then
    if pget p (pi + 1) = 0 then (pattern_set_error ps PError.incompleteEscape pi, none)
    else (ps, some (pi + 2))
  else if pget p pi = 91 then
    pattern_class_end_loop p pi ps (if pget p (pi + 1) = 94 then pi + 2 else pi + 1)
  else (ps, some (pi + 1))

theorem pattern_class_end_loop_bounds {p : List Nat} {clsStart : Nat} {ps ps2 : PState}
    {j ce : Nat} (heq : pattern_class_end_loop p clsStart ps j = (ps2, some ce)) :
    j < ce ∧ ce ≤ p.length := by
  induction j using pattern_class_end_loop.induct p clsStart ps with
  | case1 j h =>
    rw [pattern_class_end_loop, dif_pos h] at heq
    exact absurd (congrArg Prod.snd heq) (by simp)
  | case2 j h h93 =>
    rw [pattern_class_end_loop, dif_neg h, if_pos h93] at heq
    have hend : pattern_class_adv p j < p.length := pget_lt_length (by rw [h93]; decide)
    have hgt := pattern_class_adv_gt p j
    have hce : pattern_class_adv p j + 1 = ce := by
      have := congrArg Prod.snd heq
      simpa using this
    omega
  | case3 j h h93 ih =>
    rw [pattern_class_end_loop, dif_neg h, if_neg h93] at heq
    have := ih heq
    have hgt := pattern_class_adv_gt p j
    omega

theorem pattern_find_class_end_bounds {p : List Nat} {ps ps2 : PState} {pi ce : Nat}
    (h : pi < p.length) (heq : pattern_find_class_end p ps pi = (ps2, some ce)) :
    pi < ce ∧ ce ≤ p.length := by
  unfold pattern_find_class_end at heq
  split at heq
  · split at heq
    · exact absurd (congrArg Prod.snd heq) (by simp)
    · next h1 =>
      have h2 : pi + 1 < p.length := pget_lt_length h1
      have hce : pi + 2 = ce := by
        have := congrArg Prod.snd heq
        simpa using this
      omega
  · split at heq
    · have hb := pattern_class_end_loop_bounds heq
      have : pi + 1 ≤ (if pget p (pi + 1) = 94 then pi + 2 else pi + 1) := by
        split <;> omega
      omega
    · have hce : pi + 1 = ce := by
        have := congrArg Prod.snd heq
        simpa using this
      omega

/-! ## Auxiliary scans -/

/-- The class-scanning while loop of pattern_match_frontier: advance from j to
the closing bracket (or to the end of the pattern). -/
def pattern_frontier_scan (p : List Nat) (j : Nat) : Nat :=
  if h : pget p j ≠ 0 ∧ pget p j ≠ 93 then
    if pget p j = 37 ∧ pget p (j + 1) ≠ 0 then pattern_frontier_scan p (j + 2)
    else pattern_frontier_scan p (j + 1)
  else j
termination_by p.length - j
decreasing_by
  all_goals have := pget_lt_length h.1
  all_goals omega

theorem pattern_frontier_scan_ge (p : List Nat) (j : Nat) : j ≤ pattern_frontier_scan p j := by
  induction j using pattern_frontier_scan.induct p with
  | case1 j h h1 ih => rw [pattern_frontier_scan, dif_pos h, if_pos h1]; omega
  | case2 j h h1 ih => rw [pattern_frontier_scan, dif_pos h, if_neg h1]; omega
  | case3 j h => rw [pattern_frontier_scan, dif_neg h]

/-- The input-scanning loop of pattern_match_balanced: starting one past the
opening byte with nesting count 1, return the offset one past the byte that
brings the count back to zero, if any. -/
def pattern_balanced_scan (s : List Nat) (opn cls : Nat) (si : Nat) (count : Int) :
    Option Nat :=
  if h : si ≥ s.length then none
  else if sget s si = opn then pattern_balanced_scan s opn cls (si + 1) (count + 1)
  else if sget s si = cls then
    if count - 1 = 0 then some (si + 1)
    else pattern_balanced_scan s opn cls (si + 1) (count - 1)
  else pattern_balanced_scan s opn cls (si + 1) count
termination_by s.length - si
decreasing_by all_goals omega

/-- The maximal-run loop at the head of pattern_greedy_match: the number of
consecutive input bytes from si that match the atom at [pi, ce). -/
def pattern_greedy_count (s p : List Nat) (pi ce si : Nat) : Nat :=
  if h : si < s.length ∧ pattern_match_class_or_char (sget s si) p pi ce = true then
    pattern_greedy_count s p pi ce (si + 1) + 1
  else 0
termination_by s.length - si
decreasing_by omega

/-- Length of the run of decimal digits in the pattern starting at j (the
while loop computing digit_count in pattern_match_start counts 1 + this). -/
def pattern_digit_run (p : List Nat) (j : Nat) : Nat :=
  if h : isdigitB (pget p j) = true then pattern_digit_run p (j + 1) + 1 else 0
termination_by p.length - j
decreasing_by
  have hne : pget p j ≠ 0 := by
    intro h0
    rw [h0] at h
    simp [isdigitB] at h
  have := pget_lt_length hne
  omega

/-- Decimal value of the digit run starting at j (the strtol call in
pattern_match_start, with accumulator acc). -/
def pattern_parse_digits (p : List Nat) (j acc : Nat) : Nat :=
  if h : isdigitB (pget p j) = true then
    pattern_parse_digits p (j + 1) (acc * 10 + (pget p j - 48))
  else acc
termination_by p.length - j
decreasing_by
  have hne : pget p j ≠ 0 := by
    intro h0
    rw [h0] at h
    simp [isdigitB] at h
  have := pget_lt_length hne
  omega

/-! ## Capture bookkeeping -/

/-- The backward scan of pattern_finish_captures: the largest index i in
[1, n] whose capture is still unfinished. -/
def pattern_finish_scan (caps : List Cap) : Nat → Option Nat
  | 0 => Option.none
  | i + 1 =>
    if (caps.getD (i + 1) ⟨0, 0⟩).size = -1 then some (i + 1)
    else pattern_finish_scan caps i

/-- pattern_finish_captures: find the innermost still-open capture, or latch
an unexpected-capture-close error at loc. -/
def pattern_finish_captures (p : List Nat) (ps : PState) (loc : Nat) : PState × Option Nat :=
  match pattern_finish_scan ps.captures (ps.captures.length - 1) with
  | some i => (ps, some i)
  | Option.none => (pattern_set_error ps PError.unexpectedCaptureClose loc, none)

/-- pattern_match_capture: match a backreference to capture idx at input
offset si; loc is the pattern offset of the first digit (for the error). -/
def pattern_match_capture (s : List Nat) (ps : PState) (si loc idx : Nat) :
    PState × Option Nat :=
  if idx ≥ ps.captures.length ∨ (ps.captures.getD idx ⟨0, 0⟩).size = -1 ∨
      (ps.captures.getD idx ⟨0, 0⟩).size = -2 then
    (pattern_set_error ps PError.invalidCaptureIdx loc, none)
  else if s.length - si < (ps.captures.getD idx ⟨0, 0⟩).size.toNat ∨
      (s.drop si).take (ps.captures.getD idx ⟨0, 0⟩).size.toNat ≠
        (s.drop (ps.captures.getD idx ⟨0, 0⟩).start).take
          (ps.captures.getD idx ⟨0, 0⟩).size.toNat then
    (ps, none)
  else (ps, some (si + (ps.captures.getD idx ⟨0, 0⟩).size.toNat))

/-- Append a freshly opened capture slot (captures[capture_count] = cap;
capture_count++ in the C code). -/
def pattern_push_cap (ps : PState) (cap : Cap) : PState :=
  { ps with captures := ps.captures ++ [cap] }

/-- Drop the most recently pushed capture slot (capture_count-- in C). -/
def pattern_pop_cap (ps : PState) : PState :=
  { ps with captures := ps.captures.dropLast }

/-- Replace the capture list of a state. -/
def pattern_with_caps (ps : PState) (caps : List Cap) : PState :=
  { ps with captures := caps }

/-- Close capture i at input offset si: its size becomes si minus its start
(captures[i].size = string_ptr - captures[i].data in C). -/
def pattern_close_cap (caps : List Cap) (i si : Nat) : List Cap :=
  caps.set i (Cap.mk (caps.getD i ⟨0, 0⟩).start
    ((si : Int) - ((caps.getD i ⟨0, 0⟩).start : Int)))

/-- Revert capture i to unfinished (captures[i].size = UNFINISHED in C). -/
def pattern_reopen_cap (caps : List Cap) (i : Nat) : List Cap :=
  caps.set i (Cap.mk (caps.getD i ⟨0, 0⟩).start (-1))

/-! ## The recursive descent -/

mutual

/-- pattern_match_start: the continuation-passing recursive descent, matching
the pattern suffix starting at pi against the input from si.  Returns the
updated state and the input offset one past the match (none on failure). -/
def pattern_match_start (s p : List Nat) (ps : PState) (si pi : Nat) :
    PState × Option Nat :=
  if h0 : pget p pi = 0 then (ps, some si)
  else if hop : pget p pi = 40 then
    pattern_start_capture s p ps si pi (pget_lt_length h0)
  else if hcl : pget p pi = 41 then
    pattern_end_capture s p ps si pi (pget_lt_length h0)
  else if hdl : pget p pi = 36 then
    if pget p (pi + 1) = 0 then (ps, if si ≥ s.length then some si else none)
    else pattern_match_rep_operator s p ps si pi (pget_lt_length h0)
  else if hesc : pget p pi = 37 then
    if isdigitB (pget p (pi + 1)) = true then
      match pattern_match_capture s ps si (pi + 1)
          (pattern_parse_digits p (pi + 1) 0) with
      | (ps1, Option.none) => (ps1, none)
      | (ps1, some si2) =>
        pattern_match_start s p ps1 si2 (pi + (1 + pattern_digit_run p (pi + 1)))
    else if pget p (pi + 1) = 98 then
      pattern_match_balanced s p ps si pi (pget_lt_length h0)
    else if pget p (pi + 1) = 102 then
      pattern_match_frontier s p ps si pi (pget_lt_length h0)
    else pattern_match_rep_operator s p ps si pi (pget_lt_length h0)
  else pattern_match_rep_operator s p ps si pi (pget_lt_length h0)
termination_by (p.length + 1 - pi, 3, 0)
decreasing_by
  all_goals have := pget_lt_length (show pget p pi ≠ 0 by assumption)
  all_goals decreasing_tactic

/-- pattern_start_capture: push a new capture (unfinished, or position if the
pattern reads an immediate closing paren) and try the continuation; on
continuation failure pop the pushed capture. -/
def pattern_start_capture (s p : List Nat) (ps : PState) (si pi : Nat)
    (h : pi < p.length) : PState × Option Nat :=
  if ps.captures.length ≥ PATTERN_MAX_CAPTURES then
    (pattern_set_error ps PError.maxCaptures pi, none)
  else if hpos : pget p (pi + 1) = 41 then
    match pattern_match_start s p (pattern_push_cap ps ⟨si, -2⟩) si (pi + 2) with
    | (ps2, some res) => (ps2, some res)
    | (ps2, Option.none) => (pattern_pop_cap ps2, none)
  else
    match pattern_match_start s p (pattern_push_cap ps ⟨si, -1⟩) si (pi + 1) with
    | (ps2, some res) => (ps2, some res)
    | (ps2, Option.none) => (pattern_pop_cap ps2, none)
termination_by (p.length + 1 - pi, 2, 0)
decreasing_by all_goals decreasing_tactic

/-- pattern_end_capture: close the innermost open capture (recording its
length), try the continuation, and on continuation failure revert the capture
to unfinished (it is not popped). -/
def pattern_end_capture (s p : List Nat) (ps : PState) (si pi : Nat)
    (h : pi < p.length) : PState × Option Nat :=
  match pattern_finish_captures p ps pi with
  | (ps1, Option.none) => (ps1, none)
  | (ps1, some i) =>
    match pattern_match_start s p
        (pattern_with_caps ps1 (pattern_close_cap ps1.captures i si)) si (pi + 1) with
    | (ps3, some res) => (ps3, some res)
    | (ps3, Option.none) =>
      (pattern_with_caps ps3 (pattern_reopen_cap ps3.captures i), none)
termination_by (p.length + 1 - pi, 2, 0)
decreasing_by all_goals decreasing_tactic

/-- pattern_match_balanced: match a balanced run delimited by the two pattern
bytes following the %b escape at pi, then continue past the construct. -/
def pattern_match_balanced (s p : List Nat) (ps : PState) (si pi : Nat)
    (h : pi < p.length) : PState × Option Nat :=
  if pget p (pi + 2) = 0 ∨ pget p (pi + 3) = 0 then
    (pattern_set_error ps PError.invalidBalancedPattern pi, none)
  else if si ≥ s.length ∨ sget s si ≠ pget p (pi + 2) then (ps, none)
  else
    match pattern_balanced_scan s (pget p (pi + 2)) (pget p (pi + 3)) (si + 1) 1 with
    | Option.none => (ps, none)
    | some si2 => pattern_match_start s p ps si2 (pi + 4)
termination_by (p.length + 1 - pi, 2, 0)
decreasing_by all_goals decreasing_tactic

/-- pattern_match_frontier: zero-width frontier assertion: the previous byte
(0 at the start of the input) must be outside the bracket class and the
current byte (0 at the end of the input) inside it. -/
def pattern_match_frontier (s p : List Nat) (ps : PState) (si pi : Nat)
    (h : pi < p.length) : PState × Option Nat :=
  if pget p (pi + 1) = 0 ∨ pget p (pi + 2) ≠ 91 then
    (pattern_set_error ps PError.unclosedFrontierPattern pi, none)
  else if hcl : pget p (pattern_frontier_scan p (pi + 3)) = 93 then
    if !pattern_match_custom_class (if 0 < si then sget s (si - 1) else 0) p (pi + 2)
          (pattern_frontier_scan p (pi + 3)) &&
        pattern_match_custom_class (if si ≥ s.length then 0 else sget s si) p (pi + 2)
          (pattern_frontier_scan p (pi + 3)) then
      pattern_match_start s p ps si (pattern_frontier_scan p (pi + 3) + 1)
    else (ps, none)
  else (pattern_set_error ps PError.unclosedFrontierPattern pi, none)
termination_by (p.length + 1 - pi, 2, 0)
decreasing_by
  have h93 := pget_lt_length (show pget p (pattern_frontier_scan p (pi + 3)) ≠ 0 by
    rw [hcl]; decide)
  have hge := pattern_frontier_scan_ge p (pi + 3)
  decreasing_tactic

/-- pattern_match_rep_operator: determine the span of the atom at pi, inspect
the operator byte after it, and dispatch to the optional, greedy, lazy or
single-match behaviour. -/
def pattern_match_rep_operator (s p : List Nat) (ps : PState) (si pi : Nat)
    (h : pi < p.length) : PState × Option Nat :=
  match hfc : pattern_find_class_end p ps pi with
  | (ps1, Option.none) => (ps1, none)
  | (ps1, some ce) =>
    if pget p ce = 63 then
      if hm : (decide (si < s.length) &&
          pattern_match_class_or_char (sget s si) p pi ce) = true then
        match pattern_match_start s p ps1 (si + 1) (ce + 1) with
        | (ps2, some res) => (ps2, some res)
        | (ps2, Option.none) => pattern_match_start s p ps2 si (ce + 1)
      else pattern_match_start s p ps1 si (ce + 1)
    else if pget p ce = 43 then
      if (decide (si < s.length) &&
          pattern_match_class_or_char (sget s si) p pi ce) = true then
        pattern_greedy_match s p ps1 (si + 1) pi ce (pattern_find_class_end_bounds h hfc).2
      else (ps1, none)
    else if pget p ce = 42 then
      pattern_greedy_match s p ps1 si pi ce (pattern_find_class_end_bounds h hfc).2
    else if pget p ce = 45 then
      pattern_lazy_match s p ps1 si pi ce (pattern_find_class_end_bounds h hfc).2
    else
      if (decide (si < s.length) &&
          pattern_match_class_or_char (sget s si) p pi ce) = true then
        pattern_match_start s p ps1 (si + 1) ce
      else (ps1, none)
termination_by (p.length + 1 - pi, 2, 0)
decreasing_by
  all_goals have := pattern_find_class_end_bounds h hfc
  all_goals decreasing_tactic

/-- pattern_greedy_match: consume the maximal run of atom matches, then
backtrack over the consumed count with pattern_greedy_loop. -/
def pattern_greedy_match (s p : List Nat) (ps : PState) (si pi ce : Nat)
    (hce : ce ≤ p.length) : PState × Option Nat :=
  pattern_greedy_loop s p ps si pi ce (pattern_greedy_count s p pi ce si) hce
termination_by (p.length + 1 - ce, 5, 0)
decreasing_by decreasing_tactic

/-- The backtracking while loop of pattern_greedy_match: try the continuation
after i consumed atoms, decrementing i on errorless failure down to 0. -/
def pattern_greedy_loop (s p : List Nat) (ps : PState) (si pi ce i : Nat)
    (hce : ce ≤ p.length) : PState × Option Nat :=
  match pattern_match_start s p ps (si + i) (ce + 1) with
  | (ps1, some res) => (ps1, some res)
  | (ps1, Option.none) =>
    if ps1.error ≠ PError.none then (ps1, none)
    else if hi : i = 0 then (ps1, none)
    else pattern_greedy_loop s p ps1 si pi ce (i - 1) hce
termination_by (p.length + 1 - ce, 4, i)
decreasing_by all_goals decreasing_tactic

/-- pattern_lazy_match: try the continuation first; on errorless failure
consume one more atom match and retry. -/
def pattern_lazy_match (s p : List Nat) (ps : PState) (si pi ce : Nat)
    (hce : ce ≤ p.length) : PState × Option Nat :=
  match pattern_match_start s p ps si (ce + 1) with
  | (ps1, some res) => (ps1, some res)
  | (ps1, Option.none) =>
    if ps1.error ≠ PError.none then (ps1, none)
    else if hnext : si < s.length ∧
        pattern_match_class_or_char (sget s si) p pi ce = true then
      pattern_lazy_match s p ps1 (si + 1) pi ce hce
    else (ps1, none)
termination_by (p.length + 1 - ce, 4, s.length + 1 - si)
decreasing_by all_goals decreasing_tactic

end

/-! ## Post-match validation and the search driver -/

/-- strlen of the NUL-terminated pattern. -/
def pattern_strlen (p : List Nat) : Nat := (p.takeWhile (fun b => b != 0)).length

/-- The pattern rescanning loop of pattern_check_unclosed_captures: find the
position of the target-th unescaped opening paren (n is strlen of the
pattern, captures the number of parens counted so far). -/
def pattern_unclosed_scan (p : List Nat) (n target captures pat : Nat) : Nat :=
  if h : pat < n then
    if pget p pat = 37 then pattern_unclosed_scan p n target captures (pat + 2)
    else if pget p pat = 40 then
      if captures + 1 = target then pat
      else pattern_unclosed_scan p n target (captures + 1) (pat + 1)
    else pattern_unclosed_scan p n target captures (pat + 1)
  else pat
termination_by n - pat
decreasing_by all_goals omega

/-- pattern_check_unclosed_captures: after an attempt, if some capture above
slot 0 is still unfinished, latch an unclosed-capture error located at the
corresponding opening paren. -/
def pattern_check_unclosed_captures (p : List Nat) (ps : PState) : PState :=
  match (ps.captures.drop 1).findIdx? (fun c => c.size == -1) with
  | some j =>
    pattern_set_error ps PError.unclosedCapture
      (pattern_unclosed_scan p (pattern_strlen p) (j + 1) 0 0)
  | Option.none => ps

/-- The fresh state built by pattern_init: no error, one capture slot (the
whole-match slot, unfinished, data = start of the input). -/
def pattern_init : PState := ⟨PError.none, 0, [⟨0, -1⟩]⟩

/-- The unanchored do-while search loop of pattern_match_ex: attempt the
descent at si; stop on error or success, otherwise retry at si + 1 while si
was not yet past the end of the input. -/
def pattern_search_loop (s p : List Nat) (ps : PState) (si : Nat) : PStatus × PState :=
  let att := pattern_match_start s p ps si 0
  let ps2 := pattern_check_unclosed_captures p att.1
  if ps2.error ≠ PError.none then (PStatus.error, ps2)
  else
    match att.2 with
    | some r => (PStatus.matched,
        pattern_with_caps ps2 (ps2.captures.set 0 (Cap.mk si ((r : Int) - (si : Int)))))
    | Option.none =>
      if si ≥ s.length then (PStatus.no_match, ps2)
      else pattern_search_loop s p ps2 (si + 1)
termination_by s.length + 1 - si
decreasing_by omega

/-- pattern_match_ex: initialise the state, resolve a negative starting
position from the end of the input, then run the anchored descent or the
unanchored search loop. -/
def pattern_match_ex (s p : List Nat) (starting_pos : Int) : PStatus × PState :=
  let si := (if starting_pos < 0 then starting_pos + s.length else starting_pos).toNat
  if pget p 0 = 94 then
    let att := pattern_match_start s p pattern_init si 1
    let ps2 := pattern_check_unclosed_captures p att.1
    if ps2.error ≠ PError.none then (PStatus.error, ps2)
    else
      match att.2 with
      | some r => (PStatus.matched,
          pattern_with_caps ps2 (ps2.captures.set 0
            (Cap.mk ((ps2.captures.getD 0 ⟨0, 0⟩).start) ((r : Int) - (si : Int)))))
      | Option.none => (PStatus.no_match, ps2)
  else pattern_search_loop s p pattern_init si

/-- pattern_match: pattern_match_ex from starting position 0. -/
def pattern_match (s p : List Nat) : PStatus × PState := pattern_match_ex s p 0

/-! ## Basic state lemmas -/

theorem pattern_set_error_captures (ps : PState) (e : PError) (l : Nat) :
    (pattern_set_error ps e l).captures = ps.captures := by
  unfold pattern_set_error
  split <;> rfl

theorem pattern_set_error_of_error {ps : PState} (h : ps.error ≠ PError.none)
    (e : PError) (l : Nat) : pattern_set_error ps e l = ps := by
  unfold pattern_set_error
  rw [if_neg h]

theorem pattern_set_error_of_none {ps : PState} (h : ps.error = PError.none)
    (e : PError) (l : Nat) :
    pattern_set_error ps e l = { ps with error := e, error_loc := l } := by
  unfold pattern_set_error
  rw [if_pos h]

theorem pattern_set_error_error_ne {ps : PState} {e : PError} (he : e ≠ PError.none)
    (l : Nat) : (pattern_set_error ps e l).error ≠ PError.none := by
  unfold pattern_set_error
  split
  · exact he
  · assumption

/-- State evolution of the helpers that can only latch an error: the capture
list is untouched; a pre-latched error freezes the state; a state without a
latched error afterwards is entirely unchanged. -/
def ErrStep (ps ps2 : PState) : Prop :=
  ps2.captures = ps.captures ∧ (ps.error ≠ PError.none → ps2 = ps) ∧
    (ps2.error = PError.none → ps2 = ps)

theorem ErrStep.rfl {ps : PState} : ErrStep ps ps :=
  ⟨by rfl, fun _ => by rfl, fun _ => by rfl⟩

theorem ErrStep.set_error {ps : PState} {e : PError} (he : e ≠ PError.none) (l : Nat) :
    ErrStep ps (pattern_set_error ps e l) := by
  refine ⟨pattern_set_error_captures ps e l, fun h => pattern_set_error_of_error h e l, ?_⟩
  intro h2
  by_cases h : ps.error = PError.none
  · rw [pattern_set_error_of_none h] at h2
    exact absurd h2 he
  · exact pattern_set_error_of_error h e l

/-- Invariants relating a state to the result of one matching call: a failed
call leaves the capture list unchanged; a pre-latched error (with its
location) is never modified; if no error is latched afterwards, none was
latched before and the error location is untouched; the capture count stays
within the configured maximum. -/
def MatchStep (ps : PState) (r : PState × Option Nat) : Prop :=
  (r.2 = Option.none → r.1.captures = ps.captures) ∧
  (ps.error ≠ PError.none → r.1.error = ps.error ∧ r.1.error_loc = ps.error_loc) ∧
  (r.1.error = PError.none → ps.error = PError.none ∧ r.1.error_loc = ps.error_loc) ∧
  (ps.captures.length ≤ PATTERN_MAX_CAPTURES →
    r.1.captures.length ≤ PATTERN_MAX_CAPTURES)

theorem MatchStep.refl (ps : PState) (r : Option Nat) : MatchStep ps (ps, r) :=
  ⟨fun _ => by rfl, fun _ => ⟨by rfl, by rfl⟩, fun _ => ⟨by assumption, by rfl⟩, fun h => h⟩

theorem MatchStep.of_errStep {ps ps2 : PState} (h : ErrStep ps ps2) (r : Option Nat) :
    MatchStep ps (ps2, r) := by
  obtain ⟨hcap, herr, hnone⟩ := h
  refine ⟨fun _ => hcap, fun h2 => ?_, fun h2 => ?_, fun h2 => ?_⟩
  · rw [herr h2]
    exact ⟨rfl, rfl⟩
  · have h3 : ps2.error = PError.none := h2
    have h4 := hnone h3
    subst h4
    exact ⟨h3, rfl⟩
  · have h3 : ps2.captures.length ≤ PATTERN_MAX_CAPTURES := by rw [hcap]; exact h2
    exact h3

theorem MatchStep.none_trans {ps ps1 : PState} {r : PState × Option Nat}
    (h1 : MatchStep ps (ps1, Option.none)) (h2 : MatchStep ps1 r) :
    MatchStep ps r := by
  obtain ⟨c1, e1, n1, l1⟩ := h1
  obtain ⟨c2, e2, n2, l2⟩ := h2
  refine ⟨fun hr => ?_, fun he => ?_, fun hn => ?_, fun hl => ?_⟩
  · rw [c2 hr, c1 rfl]
  · obtain ⟨ha, hb⟩ := e1 he
    have he1 : ps1.error ≠ PError.none := by rw [ha]; exact he
    obtain ⟨hc, hd⟩ := e2 he1
    exact ⟨by rw [hc, ha], by rw [hd, hb]⟩
  · obtain ⟨ha, hb⟩ := n2 hn
    obtain ⟨hc, hd⟩ := n1 ha
    exact ⟨hc, by rw [hb, hd]⟩
  · exact l2 (by rw [c1 rfl]; exact hl)

theorem ErrStep.matchStep_trans {ps ps1 : PState} {r : PState × Option Nat}
    (h1 : ErrStep ps ps1) (h2 : MatchStep ps1 r) : MatchStep ps r :=
  MatchStep.none_trans (MatchStep.of_errStep h1 Option.none) h2

/-! ## State behaviour of the pure-error helpers -/

theorem pattern_class_end_loop_errStep (p : List Nat) (clsStart : Nat) (ps : PState)
    (j : Nat) : ErrStep ps (pattern_class_end_loop p clsStart ps j).1 ∧
      (∀ ps2 ce, pattern_class_end_loop p clsStart ps j = (ps2, some ce) → ps2 = ps) := by
  induction j using pattern_class_end_loop.induct p clsStart ps with
  | case1 j h =>
    rw [pattern_class_end_loop, dif_pos h]
    refine ⟨ErrStep.set_error (by decide) clsStart, fun ps2 ce hce => ?_⟩
    have := congrArg Prod.snd hce
    simp at this
  | case2 j h h93 =>
    rw [pattern_class_end_loop, dif_neg h, if_pos h93]
    refine ⟨ErrStep.rfl, fun ps2 ce hce => ?_⟩
    have := congrArg Prod.fst hce
    simpa using this.symm
  | case3 j h h93 ih =>
    rw [pattern_class_end_loop, dif_neg h, if_neg h93]
    exact ih

theorem pattern_find_class_end_errStep (p : List Nat) (ps : PState) (pi : Nat) :
    ErrStep ps (pattern_find_class_end p ps pi).1 := by
  unfold pattern_find_class_end
  split
  · split
    · exact ErrStep.set_error (by decide) pi
    · exact ErrStep.rfl
  · split
    · exact (pattern_class_end_loop_errStep p pi ps _).1
    · exact ErrStep.rfl

theorem pattern_find_class_end_some {p : List Nat} {ps ps1 : PState} {pi ce : Nat}
    (heq : pattern_find_class_end p ps pi = (ps1, some ce)) : ps1 = ps := by
  unfold pattern_find_class_end at heq
  split at heq
  · split at heq
    · have := congrArg Prod.snd heq
      simp at this
    · simpa using (congrArg Prod.fst heq).symm
  · split at heq
    · exact (pattern_class_end_loop_errStep p pi ps _).2 ps1 ce heq
    · simpa using (congrArg Prod.fst heq).symm

theorem pattern_finish_scan_bounds {caps : List Cap} : ∀ {n i : Nat},
    pattern_finish_scan caps n = some i →
      1 ≤ i ∧ i ≤ n ∧ (caps.getD i ⟨0, 0⟩).size = -1 := by
  intro n
  induction n with
  | zero => intro i h; simp [pattern_finish_scan] at h
  | succ n ih =>
    intro i h
    rw [pattern_finish_scan] at h
    split at h
    · obtain rfl : n + 1 = i := by simpa using h
      exact ⟨by omega, by omega, by assumption⟩
    · obtain ⟨h1, h2, h3⟩ := ih h
      exact ⟨h1, by omega, h3⟩

theorem pattern_finish_captures_errStep (p : List Nat) (ps : PState) (loc : Nat) :
    ErrStep ps (pattern_finish_captures p ps loc).1 := by
  unfold pattern_finish_captures
  split
  · exact ErrStep.rfl
  · exact ErrStep.set_error (by decide) loc

theorem pattern_finish_captures_some {p : List Nat} {ps ps1 : PState} {loc i : Nat}
    (heq : pattern_finish_captures p ps loc = (ps1, some i)) :
    ps1 = ps ∧ 1 ≤ i ∧ i < ps.captures.length ∧ (ps.captures.getD i ⟨0, 0⟩).size = -1 := by
  unfold pattern_finish_captures at heq
  split at heq
  · next j hj =>
    obtain ⟨h1, h2⟩ := Prod.mk.injEq .. ▸ heq
    obtain rfl : j = i := by simpa using h2
    obtain ⟨b1, b2, b3⟩ := pattern_finish_scan_bounds hj
    refine ⟨h1.symm, b1, ?_, b3⟩
    have : ps.captures.length ≠ 0 := by
      intro h0
      rw [h0] at b2
      omega
    omega
  · have := congrArg Prod.snd heq
    simp at this

theorem pattern_match_capture_errStep (s : List Nat) (ps : PState) (si loc idx : Nat) :
    ErrStep ps (pattern_match_capture s ps si loc idx).1 := by
  unfold pattern_match_capture
  split
  · exact ErrStep.set_error (by decide) loc
  · split
    · exact ErrStep.rfl
    · exact ErrStep.rfl

theorem pattern_match_capture_some {s : List Nat} {ps ps1 : PState} {si loc idx si2 : Nat}
    (heq : pattern_match_capture s ps si loc idx = (ps1, some si2)) : ps1 = ps := by
  unfold pattern_match_capture at heq
  split at heq
  · have := congrArg Prod.snd heq
    simp at this
  · split at heq
    · have := congrArg Prod.snd heq
      simp at this
    · simpa using (congrArg Prod.fst heq).symm

theorem pattern_check_unclosed_errStep (p : List Nat) (ps : PState) :
    ErrStep ps (pattern_check_unclosed_captures p ps) := by
  unfold pattern_check_unclosed_captures
  split
  · exact ErrStep.set_error (by decide) _
  · exact ErrStep.rfl

/-! ## Capture helper lemmas -/

theorem pattern_push_cap_spec (ps : PState) (cap : Cap) :
    (pattern_push_cap ps cap).captures = ps.captures ++ [cap] ∧
      (pattern_push_cap ps cap).error = ps.error ∧
      (pattern_push_cap ps cap).error_loc = ps.error_loc :=
  ⟨rfl, rfl, rfl⟩

theorem pattern_errStep_push_pop {ps ps2 : PState} {cap : Cap}
    (h : MatchStep (pattern_push_cap ps cap) (ps2, Option.none)) :
    ErrStep ps (pattern_pop_cap ps2) := by
  obtain ⟨c1, e1, n1, l1⟩ := h
  have hc : ps2.captures = ps.captures ++ [cap] := c1 rfl
  have hpop : (pattern_pop_cap ps2).captures = ps.captures := by
    simp [pattern_pop_cap, hc, List.dropLast_concat]
  refine ⟨hpop, fun he => ?_, fun hn => ?_⟩
  · obtain ⟨ha, hb⟩ := e1 he
    refine PState.ext ?_ ?_ hpop
    · exact ha
    · exact hb
  · have hn2 : ps2.error = PError.none := hn
    obtain ⟨ha, hb⟩ := n1 hn2
    have ha2 : ps.error = PError.none := ha
    refine PState.ext ?_ ?_ hpop
    · show ps2.error = ps.error
      rw [ha2, hn2]
    · exact hb

theorem list_set_getD_eq {l : List Cap} {i : Nat} {v : Cap} (hi : i < l.length)
    (h : l.getD i ⟨0, 0⟩ = v) : l.set i v = l := by
  refine List.ext_getElem (by rw [List.length_set]) ?_
  intro n h1 h2
  rw [List.getElem_set]
  split
  · next hin =>
    subst hin
    rw [← h, List.getD_eq_getElem l ⟨0, 0⟩ h2]
  · rfl

theorem pattern_close_cap_length (caps : List Cap) (i si : Nat) :
    (pattern_close_cap caps i si).length = caps.length := by
  simp [pattern_close_cap, List.length_set]

theorem pattern_reopen_cap_length (caps : List Cap) (i : Nat) :
    (pattern_reopen_cap caps i).length = caps.length := by
  simp [pattern_reopen_cap, List.length_set]

theorem pattern_reopen_close {caps : List Cap} {i : Nat} (si : Nat)
    (hi : i < caps.length) (hu : (caps.getD i ⟨0, 0⟩).size = -1) :
    pattern_reopen_cap (pattern_close_cap caps i si) i = caps := by
  unfold pattern_reopen_cap pattern_close_cap
  have hlen : i < (caps.set i (Cap.mk (caps.getD i ⟨0, 0⟩).start
      ((si : Int) - ((caps.getD i ⟨0, 0⟩).start : Int)))).length := by
    rw [List.length_set]
    exact hi
  have hget : (caps.set i (Cap.mk (caps.getD i ⟨0, 0⟩).start
      ((si : Int) - ((caps.getD i ⟨0, 0⟩).start : Int)))).getD i ⟨0, 0⟩ =
      Cap.mk (caps.getD i ⟨0, 0⟩).start ((si : Int) - ((caps.getD i ⟨0, 0⟩).start : Int)) := by
    rw [List.getD_eq_getElem _ _ hlen, List.getElem_set_self]
  rw [hget, List.set_set]
  refine list_set_getD_eq hi (Cap.ext rfl hu)

/-! ## Branch equations for pattern_match_rep_operator -/

theorem pattern_match_rep_operator_none {s p : List Nat} {ps ps1 : PState} {si pi : Nat}
    {h : pi < p.length} (hfc : pattern_find_class_end p ps pi = (ps1, Option.none)) :
    pattern_match_rep_operator s p ps si pi h = (ps1, Option.none) := by
  rw [pattern_match_rep_operator]
  split
  · next ps2 heq =>
    rw [hfc] at heq
    obtain ⟨h1, -⟩ := Prod.mk.injEq .. ▸ heq
    rw [h1]
  · next ps2 ce heq =>
    rw [hfc] at heq
    have := congrArg Prod.snd heq
    simp at this

theorem pattern_match_rep_operator_some {s p : List Nat} {ps ps1 : PState} {si pi ce : Nat}
    {h : pi < p.length} (hfc : pattern_find_class_end p ps pi = (ps1, some ce)) :
    pattern_match_rep_operator s p ps si pi h =
      (if pget p ce = 63 then
        (if (decide (si < s.length) &&
            pattern_match_class_or_char (sget s si) p pi ce) = true then
          (match pattern_match_start s p ps1 (si + 1) (ce + 1) with
          | (ps2, some res) => (ps2, some res)
          | (ps2, Option.none) => pattern_match_start s p ps2 si (ce + 1))
        else pattern_match_start s p ps1 si (ce + 1))
      else if pget p ce = 43 then
        (if (decide (si < s.length) &&
            pattern_match_class_or_char (sget s si) p pi ce) = true then
          pattern_greedy_match s p ps1 (si + 1) pi ce
            (pattern_find_class_end_bounds h hfc).2
        else (ps1, Option.none))
      else if pget p ce = 42 then
        pattern_greedy_match s p ps1 si pi ce (pattern_find_class_end_bounds h hfc).2
      else if pget p ce = 45 then
        pattern_lazy_match s p ps1 si pi ce (pattern_find_class_end_bounds h hfc).2
      else
        (if (decide (si < s.length) &&
            pattern_match_class_or_char (sget s si) p pi ce) = true then
          pattern_match_start s p ps1 (si + 1) ce
        else (ps1, Option.none))) := by
  rw [pattern_match_rep_operator]
  split
  · next ps2 heq =>
    rw [hfc] at heq
    have := congrArg Prod.snd heq
    simp at this
  · next ps2 ce2 heq =>
    rw [hfc] at heq
    obtain ⟨h1, h2⟩ := Prod.mk.injEq .. ▸ heq
    obtain rfl : ce = ce2 := by simpa using h2
    subst h1
    rfl

set_option maxHeartbeats 1600000 in
/-- The central invariant bundle, proved by mutual functional induction over
the whole recursive descent: every matching function satisfies MatchStep
(frame property on failure, error latch stability, error location stability,
capture-count bound). -/
theorem pattern_match_step_invariants (s p : List Nat) :
    (∀ ps si pi, MatchStep ps (pattern_match_start s p ps si pi)) ∧
    (∀ ps si pi h, MatchStep ps (pattern_match_frontier s p ps si pi h)) ∧
    (∀ ps si pi h, MatchStep ps (pattern_match_balanced s p ps si pi h)) ∧
    (∀ ps si pi h, MatchStep ps (pattern_match_rep_operator s p ps si pi h)) ∧
    (∀ ps si pi ce hce, MatchStep ps (pattern_lazy_match s p ps si pi ce hce)) ∧
    (∀ ps si pi ce hce, MatchStep ps (pattern_greedy_match s p ps si pi ce hce)) ∧
    (∀ ps si pi ce i hce, MatchStep ps (pattern_greedy_loop s p ps si pi ce i hce)) ∧
    (∀ ps si pi h, MatchStep ps (pattern_end_capture s p ps si pi h)) ∧
    (∀ ps si pi h, MatchStep ps (pattern_start_capture s p ps si pi h)) := by
  apply pattern_match_start.mutual_induct s p
  -- pattern_match_start, pattern end
  · intro ps si pi h0
    rw [pattern_match_start, dif_pos h0]
    exact MatchStep.refl ps _
  -- pattern_match_start, open paren
  · intro ps si pi h0 h40 ih
    rw [pattern_match_start, dif_neg h0, dif_pos h40]
    exact ih
  -- pattern_match_start, close paren
  · intro ps si pi h0 h40 h41 ih
    rw [pattern_match_start, dif_neg h0, dif_neg h40, dif_pos h41]
    exact ih
  -- pattern_match_start, final dollar
  · intro ps si pi h0 h40 h41 h36 hnext
    rw [pattern_match_start, dif_neg h0, dif_neg h40, dif_neg h41, dif_pos h36, if_pos hnext]
    exact MatchStep.refl ps _
  -- pattern_match_start, non-final dollar
  · intro ps si pi h0 h40 h41 h36 hnext ih
    rw [pattern_match_start, dif_neg h0, dif_neg h40, dif_neg h41, dif_pos h36, if_neg hnext]
    exact ih
  -- pattern_match_start, backreference failing
  · intro ps si pi h0 h40 h41 h36 h37 hdig ps1 hmc
    rw [pattern_match_start, dif_neg h0, dif_neg h40, dif_neg h41, dif_neg h36, dif_pos h37,
      if_pos hdig, hmc]
    have he := pattern_match_capture_errStep s ps si (pi + 1) (pattern_parse_digits p (pi + 1) 0)
    rw [hmc] at he
    exact MatchStep.of_errStep he Option.none
  -- pattern_match_start, backreference succeeding
  · intro ps si pi h0 h40 h41 h36 h37 hdig ps1 si2 hmc ih
    rw [pattern_match_start, dif_neg h0, dif_neg h40, dif_neg h41, dif_neg h36, dif_pos h37,
      if_pos hdig, hmc]
    have hps := pattern_match_capture_some hmc
    subst hps
    exact ih
  -- pattern_match_start, balanced
  · intro ps si pi h0 h40 h41 h36 h37 hdig h98 ih
    rw [pattern_match_start, dif_neg h0, dif_neg h40, dif_neg h41, dif_neg h36, dif_pos h37,
      if_neg hdig, if_pos h98]
    exact ih
  -- pattern_match_start, frontier
  · intro ps si pi h0 h40 h41 h36 h37 hdig h98 h102 ih
    rw [pattern_match_start, dif_neg h0, dif_neg h40, dif_neg h41, dif_neg h36, dif_pos h37,
      if_neg hdig, if_neg h98, if_pos h102]
    exact ih
  -- pattern_match_start, other escape
  · intro ps si pi h0 h40 h41 h36 h37 hdig h98 h102 ih
    rw [pattern_match_start, dif_neg h0, dif_neg h40, dif_neg h41, dif_neg h36, dif_pos h37,
      if_neg hdig, if_neg h98, if_neg h102]
    exact ih
  -- pattern_match_start, ordinary atom
  · intro ps si pi h0 h40 h41 h36 h37 ih
    rw [pattern_match_start, dif_neg h0, dif_neg h40, dif_neg h41, dif_neg h36, dif_neg h37]
    exact ih
  -- frontier, malformed head
  · intro ps si pi h hor
    rw [pattern_match_frontier, if_pos hor]
    exact MatchStep.of_errStep (ErrStep.set_error (by decide) pi) Option.none
  -- frontier, boundary holds
  · intro ps si pi h hor hcl hcond ih
    have hc2 : (!pattern_match_custom_class (if 0 < si then sget s (si - 1) else 0) p (pi + 2)
          (pattern_frontier_scan p (pi + 3)) &&
        pattern_match_custom_class (if si ≥ s.length then 0 else sget s si) p (pi + 2)
          (pattern_frontier_scan p (pi + 3))) = true := hcond
    rw [pattern_match_frontier, if_neg hor, dif_pos hcl, if_pos hc2]
    exact ih
  -- frontier, boundary fails
  · intro ps si pi h hor hcl hcond
    have hc2 : ¬(!pattern_match_custom_class (if 0 < si then sget s (si - 1) else 0) p (pi + 2)
          (pattern_frontier_scan p (pi + 3)) &&
        pattern_match_custom_class (if si ≥ s.length then 0 else sget s si) p (pi + 2)
          (pattern_frontier_scan p (pi + 3))) = true := hcond
    rw [pattern_match_frontier, if_neg hor, dif_pos hcl, if_neg hc2]
    exact MatchStep.refl ps _
  -- frontier, unclosed class
  · intro ps si pi h hor hcl
    rw [pattern_match_frontier, if_neg hor, dif_neg hcl]
    exact MatchStep.of_errStep (ErrStep.set_error (by decide) pi) Option.none
  -- balanced, malformed
  · intro ps si pi h hor
    rw [pattern_match_balanced, if_pos hor]
    exact MatchStep.of_errStep (ErrStep.set_error (by decide) pi) Option.none
  -- balanced, open byte mismatch
  · intro ps si pi h hor hnm
    rw [pattern_match_balanced, if_neg hor, if_pos hnm]
    exact MatchStep.refl ps _
  -- balanced, scan fails
  · intro ps si pi h hor hnm hsc
    rw [pattern_match_balanced, if_neg hor, if_neg hnm, hsc]
    exact MatchStep.refl ps _
  -- balanced, scan succeeds
  · intro ps si pi h hor hnm si2 hsc ih
    rw [pattern_match_balanced, if_neg hor, if_neg hnm, hsc]
    exact ih
  -- rep operator, malformed atom
  · intro ps si pi h ps1 hfc
    rw [pattern_match_rep_operator_none hfc]
    have he := pattern_find_class_end_errStep p ps pi
    rw [hfc] at he
    exact MatchStep.of_errStep he Option.none
  -- rep operator, optional with consuming success
  · intro ps si pi h ps1 ce hfc h63 hm ps2 res hrec ih
    have hps := pattern_find_class_end_some hfc
    subst hps
    rw [pattern_match_rep_operator_some hfc, if_pos h63, if_pos hm, hrec]
    rw [hrec] at ih
    exact ih
  -- rep operator, optional falling back after consuming failure
  · intro ps si pi h ps1 ce hfc h63 hm ps2 hrec ih1 ih2
    have hps := pattern_find_class_end_some hfc
    subst hps
    rw [pattern_match_rep_operator_some hfc, if_pos h63, if_pos hm, hrec]
    rw [hrec] at ih1
    exact MatchStep.none_trans ih1 ih2
  -- rep operator, optional with no atom match
  · intro ps si pi h ps1 ce hfc h63 hm ih
    have hps := pattern_find_class_end_some hfc
    subst hps
    rw [pattern_match_rep_operator_some hfc, if_pos h63, if_neg hm]
    exact ih
  -- rep operator, plus with atom match
  · intro ps si pi h ps1 ce hfc h63 h43 hm ih
    have hps := pattern_find_class_end_some hfc
    subst hps
    rw [pattern_match_rep_operator_some hfc, if_neg h63, if_pos h43, if_pos hm]
    exact ih
  -- rep operator, plus without atom match
  · intro ps si pi h ps1 ce hfc h63 h43 hm
    have hps := pattern_find_class_end_some hfc
    subst hps
    rw [pattern_match_rep_operator_some hfc, if_neg h63, if_pos h43, if_neg hm]
    exact MatchStep.refl _ _
  -- rep operator, star
  · intro ps si pi h ps1 ce hfc h63 h43 h42 ih
    have hps := pattern_find_class_end_some hfc
    subst hps
    rw [pattern_match_rep_operator_some hfc, if_neg h63, if_neg h43, if_pos h42]
    exact ih
  -- rep operator, lazy
  · intro ps si pi h ps1 ce hfc h63 h43 h42 h45 ih
    have hps := pattern_find_class_end_some hfc
    subst hps
    rw [pattern_match_rep_operator_some hfc, if_neg h63, if_neg h43, if_neg h42, if_pos h45]
    exact ih
  -- rep operator, single atom with match
  · intro ps si pi h ps1 ce hfc h63 h43 h42 h45 hm ih
    have hps := pattern_find_class_end_some hfc
    subst hps
    rw [pattern_match_rep_operator_some hfc, if_neg h63, if_neg h43, if_neg h42, if_neg h45,
      if_pos hm]
    exact ih
  -- rep operator, single atom without match
  · intro ps si pi h ps1 ce hfc h63 h43 h42 h45 hm
    have hps := pattern_find_class_end_some hfc
    subst hps
    rw [pattern_match_rep_operator_some hfc, if_neg h63, if_neg h43, if_neg h42, if_neg h45,
      if_neg hm]
    exact MatchStep.refl _ _
  -- lazy, continuation succeeds
  · intro ps si pi ce hce ps1 res hrec ih
    rw [pattern_lazy_match, hrec]
    rw [hrec] at ih
    exact ih
  -- lazy, continuation errors
  · intro ps si pi ce hce ps1 hrec herr ih
    rw [pattern_lazy_match, hrec]
    simp only [if_pos herr]
    rw [hrec] at ih
    exact ih
  -- lazy, consume one atom and retry
  · intro ps si pi ce hce ps1 hrec herr hnext ih1 ih2
    rw [pattern_lazy_match, hrec]
    simp only [if_neg herr, dif_pos hnext]
    rw [hrec] at ih1
    exact MatchStep.none_trans ih1 ih2
  -- lazy, atom stops matching
  · intro ps si pi ce hce ps1 hrec herr hnext ih1
    rw [pattern_lazy_match, hrec]
    simp only [if_neg herr, dif_neg hnext]
    rw [hrec] at ih1
    exact ih1
  -- greedy match
  · intro ps si pi ce hce ih
    rw [pattern_greedy_match]
    exact ih
  -- greedy loop, continuation succeeds
  · intro ps si pi ce i hce ps1 res hrec ih
    rw [pattern_greedy_loop, hrec]
    rw [hrec] at ih
    exact ih
  -- greedy loop, continuation errors
  · intro ps si pi ce i hce ps1 hrec herr ih
    rw [pattern_greedy_loop, hrec]
    simp only [if_pos herr]
    rw [hrec] at ih
    exact ih
  -- greedy loop, exhausted
  · intro ps si pi ce hce ps1 herr hrec ih
    rw [pattern_greedy_loop, hrec]
    simp only [if_neg herr]
    rw [hrec] at ih
    exact ih
  -- greedy loop, decrement and retry
  · intro ps si pi ce i hce ps1 hrec herr hi ih1 ih2
    rw [pattern_greedy_loop, hrec]
    simp only [if_neg herr, dif_neg hi]
    rw [hrec] at ih1
    exact MatchStep.none_trans ih1 ih2
  -- end capture, no open capture
  · intro ps si pi h ps1 hfin
    rw [pattern_end_capture, hfin]
    have he := pattern_finish_captures_errStep p ps pi
    rw [hfin] at he
    exact MatchStep.of_errStep he Option.none
  -- end capture, continuation succeeds
  · intro ps si pi h ps1 i hfin ps3 res hrec ih
    obtain ⟨hps, hi1, hilen, hu⟩ := pattern_finish_captures_some hfin
    rw [hps] at hrec ih hfin
    rw [pattern_end_capture, hfin]
    show MatchStep ps (match pattern_match_start s p
        (pattern_with_caps ps (pattern_close_cap ps.captures i si)) si (pi + 1) with
      | (ps3, some res) => (ps3, some res)
      | (ps3, Option.none) =>
        (pattern_with_caps ps3 (pattern_reopen_cap ps3.captures i), Option.none))
    rw [hrec]
    rw [hrec] at ih
    obtain ⟨c1, e1, n1, l1⟩ := ih
    refine ⟨fun hr => absurd hr (by simp), fun he => e1 he, fun hn => n1 hn, fun hl => ?_⟩
    refine l1 ?_
    show (pattern_close_cap ps.captures i si).length ≤ PATTERN_MAX_CAPTURES
    rw [pattern_close_cap_length]
    exact hl
  -- end capture, continuation fails: revert the capture
  · intro ps si pi h ps1 i hfin ps3 hrec ih
    obtain ⟨hps, hi1, hilen, hu⟩ := pattern_finish_captures_some hfin
    rw [hps] at hrec ih hfin
    rw [pattern_end_capture, hfin]
    show MatchStep ps (match pattern_match_start s p
        (pattern_with_caps ps (pattern_close_cap ps.captures i si)) si (pi + 1) with
      | (ps3, some res) => (ps3, some res)
      | (ps3, Option.none) =>
        (pattern_with_caps ps3 (pattern_reopen_cap ps3.captures i), Option.none))
    rw [hrec]
    rw [hrec] at ih
    obtain ⟨c1, e1, n1, l1⟩ := ih
    have hc3 : ps3.captures = pattern_close_cap ps.captures i si := c1 rfl
    have hre : pattern_reopen_cap ps3.captures i = ps.captures := by
      rw [hc3, pattern_reopen_close si hilen hu]
    refine ⟨fun hr => hre, fun he => e1 he, fun hn => n1 hn, fun hl => ?_⟩
    show (pattern_reopen_cap ps3.captures i).length ≤ PATTERN_MAX_CAPTURES
    rw [hre]
    exact hl
  -- start capture, at maximum
  · intro ps si pi h hguard
    rw [pattern_start_capture, if_pos hguard]
    exact MatchStep.of_errStep (ErrStep.set_error (by decide) pi) Option.none
  -- start capture, position capture, continuation succeeds
  · intro ps si pi h hguard hpos ps2 res hrec ih
    rw [pattern_start_capture, if_neg hguard, dif_pos hpos, hrec]
    rw [hrec] at ih
    obtain ⟨c1, e1, n1, l1⟩ := ih
    refine ⟨fun hr => absurd hr (by simp), fun he => e1 he, fun hn => n1 hn, fun hl => ?_⟩
    refine l1 ?_
    show (ps.captures ++ [(⟨si, -2⟩ : Cap)]).length ≤ PATTERN_MAX_CAPTURES
    rw [List.length_append]
    simp only [List.length_cons, List.length_nil]
    omega
  -- start capture, position capture, continuation fails: pop
  · intro ps si pi h hguard hpos ps2 hrec ih
    rw [pattern_start_capture, if_neg hguard, dif_pos hpos, hrec]
    rw [hrec] at ih
    exact MatchStep.of_errStep (pattern_errStep_push_pop ih) Option.none
  -- start capture, ordinary capture, continuation succeeds
  · intro ps si pi h hguard hpos ps2 res hrec ih
    rw [pattern_start_capture, if_neg hguard, dif_neg hpos, hrec]
    rw [hrec] at ih
    obtain ⟨c1, e1, n1, l1⟩ := ih
    refine ⟨fun hr => absurd hr (by simp), fun he => e1 he, fun hn => n1 hn, fun hl => ?_⟩
    refine l1 ?_
    show (ps.captures ++ [(⟨si, -1⟩ : Cap)]).length ≤ PATTERN_MAX_CAPTURES
    rw [List.length_append]
    simp only [List.length_cons, List.length_nil]
    omega
  -- start capture, ordinary capture, continuation fails: pop
  · intro ps si pi h hguard hpos ps2 hrec ih
    rw [pattern_start_capture, if_neg hguard, dif_neg hpos, hrec]
    rw [hrec] at ih
    exact MatchStep.of_errStep (pattern_errStep_push_pop ih) Option.none

/-- Frame property: a failed descent leaves the capture list unchanged. -/
theorem pattern_match_start_frame {s p : List Nat} {ps ps1 : PState} {si pi : Nat}
    (h : pattern_match_start s p ps si pi = (ps1, Option.none)) :
    ps1.captures = ps.captures := by
  have hm := (pattern_match_step_invariants s p).1 ps si pi
  rw [h] at hm
  exact hm.1 rfl

/-- A latched error (and its location) is never modified by the descent. -/
theorem pattern_match_start_error_latch {s p : List Nat} {ps : PState} {si pi : Nat}
    (h : ps.error ≠ PError.none) :
    (pattern_match_start s p ps si pi).1.error = ps.error ∧
      (pattern_match_start s p ps si pi).1.error_loc = ps.error_loc :=
  ((pattern_match_step_invariants s p).1 ps si pi).2.1 h

/-- An attempt that fails without latching an error leaves the state exactly
as it was. -/
theorem pattern_match_start_fail_id {s p : List Nat} {ps ps1 : PState} {si pi : Nat}
    (h : pattern_match_start s p ps si pi = (ps1, Option.none))
    (herr : ps1.error = PError.none) : ps1 = ps := by
  have hm := (pattern_match_step_invariants s p).1 ps si pi
  rw [h] at hm
  obtain ⟨c1, -, n1, -⟩ := hm
  obtain ⟨ha, hb⟩ := n1 herr
  exact PState.ext (by rw [herr, ha]) hb (c1 rfl)

/-- The capture count never exceeds the configured maximum. -/
theorem pattern_match_start_count_le {s p : List Nat} {ps : PState} {si pi : Nat}
    (h : ps.captures.length ≤ PATTERN_MAX_CAPTURES) :
    (pattern_match_start s p ps si pi).1.captures.length ≤ PATTERN_MAX_CAPTURES :=
  ((pattern_match_step_invariants s p).1 ps si pi).2.2.2 h

/-- pattern_check_unclosed_captures does nothing on a state whose capture
stack holds only the whole-match slot. -/
theorem pattern_check_unclosed_singleton (p : List Nat) (ps : PState)
    (h : ps.captures.drop 1 = []) : pattern_check_unclosed_captures p ps = ps := by
  unfold pattern_check_unclosed_captures
  rw [h, List.findIdx?_nil]

/-! ## Stepping lemmas for the unanchored search loop -/

theorem pattern_search_loop_step_error {s p : List Nat} {ps ps1 : PState}
    {r : Option Nat} {si : Nat}
    (hatt : pattern_match_start s p ps si 0 = (ps1, r))
    (herr : (pattern_check_unclosed_captures p ps1).error ≠ PError.none) :
    pattern_search_loop s p ps si = (PStatus.error, pattern_check_unclosed_captures p ps1) := by
  rw [pattern_search_loop]
  simp only [hatt, if_pos herr]

theorem pattern_search_loop_step_match {s p : List Nat} {ps ps1 : PState}
    {r si : Nat}
    (hatt : pattern_match_start s p ps si 0 = (ps1, some r))
    (herr : ¬(pattern_check_unclosed_captures p ps1).error ≠ PError.none) :
    pattern_search_loop s p ps si = (PStatus.matched,
      pattern_with_caps (pattern_check_unclosed_captures p ps1)
        ((pattern_check_unclosed_captures p ps1).captures.set 0
          (Cap.mk si ((r : Int) - (si : Int))))) := by
  rw [pattern_search_loop]
  simp only [hatt, if_neg herr]

theorem pattern_search_loop_step_fail_end {s p : List Nat} {ps ps1 : PState} {si : Nat}
    (hatt : pattern_match_start s p ps si 0 = (ps1, Option.none))
    (herr : ¬(pattern_check_unclosed_captures p ps1).error ≠ PError.none)
    (hend : si ≥ s.length) :
    pattern_search_loop s p ps si = (PStatus.no_match, pattern_check_unclosed_captures p ps1) := by
  rw [pattern_search_loop]
  simp only [hatt, if_neg herr, if_pos hend]

theorem pattern_search_loop_step_fail_next {s p : List Nat} {ps ps1 : PState} {si : Nat}
    (hatt : pattern_match_start s p ps si 0 = (ps1, Option.none))
    (herr : ¬(pattern_check_unclosed_captures p ps1).error ≠ PError.none)
    (hlt : si < s.length) :
    pattern_search_loop s p ps si =
      pattern_search_loop s p (pattern_check_unclosed_captures p ps1) (si + 1) := by
  rw [pattern_search_loop]
  simp only [hatt, if_neg herr, if_neg (by omega : ¬si ≥ s.length)]

/-- Skipping over failed start offsets: while every offset in [si, k) fails
without an error (leaving the fresh state unchanged), the search loop from si
equals the search loop from k. -/
theorem pattern_search_loop_skip (s p : List Nat) : ∀ (n si k : Nat), k - si ≤ n →
    si ≤ k → k ≤ s.length →
    (∀ j, si ≤ j → j < k →
      pattern_match_start s p pattern_init j 0 = (pattern_init, Option.none)) →
    pattern_search_loop s p pattern_init si = pattern_search_loop s p pattern_init k := by
  intro n
  induction n with
  | zero =>
    intro si k h0 h1 h2 hall
    have : si = k := by omega
    rw [this]
  | succ n ih =>
    intro si k h0 h1 h2 hall
    by_cases hk : si = k
    · rw [hk]
    · have hlt : si < k := by omega
      have hfail := hall si le_rfl hlt
      have hch : pattern_check_unclosed_captures p pattern_init = pattern_init :=
        pattern_check_unclosed_singleton p pattern_init rfl
      have hstep := pattern_search_loop_step_fail_next hfail
        (by rw [hch]; simp [pattern_init]) (by omega)
      rw [hstep, hch]
      exact ih (si + 1) k (by omega) (by omega) h2 (fun j hj1 hj2 => hall j (by omega) hj2)

/-- In unanchored mode (no leading caret) with a nonnegative in-range start
offset, pattern_match_ex runs the search loop from that offset. -/
theorem pattern_match_ex_unanchored (s p : List Nat) (s0 : Nat) (hp : pget p 0 ≠ 94) :
    pattern_match_ex s p (s0 : Int) = pattern_search_loop s p pattern_init s0 := by
  rw [pattern_match_ex]
  simp only [if_neg hp]
  have : ((s0 : Int) < 0) = False := by simp
  simp [this]

/-! ## The maximal-run property of pattern_greedy_count -/

theorem pattern_greedy_count_run (s p : List Nat) (pi ce : Nat) : ∀ si j,
    j < pattern_greedy_count s p pi ce si →
      si + j < s.length ∧ pattern_match_class_or_char (sget s (si + j)) p pi ce = true := by
  intro si
  induction si using pattern_greedy_count.induct s p pi ce with
  | case1 si h ih =>
    intro j hj
    rw [pattern_greedy_count, dif_pos h] at hj
    match j with
    | 0 => exact ⟨h.1, h.2⟩
    | j2 + 1 =>
      have := ih j2 (by omega)
      constructor
      · omega
      · have heq : si + 1 + j2 = si + (j2 + 1) := by omega
        rw [heq] at this
        exact this.2
  | case2 si h =>
    intro j hj
    rw [pattern_greedy_count, dif_neg h] at hj
    omega

theorem pattern_greedy_count_max (s p : List Nat) (pi ce : Nat) : ∀ si,
    s.length ≤ si + pattern_greedy_count s p pi ce si ∨
      pattern_match_class_or_char (sget s (si + pattern_greedy_count s p pi ce si)) p pi ce
        = false := by
  intro si
  induction si using pattern_greedy_count.induct s p pi ce with
  | case1 si h ih =>
    rw [pattern_greedy_count, dif_pos h]
    have heq : si + (pattern_greedy_count s p pi ce (si + 1) + 1) =
        si + 1 + pattern_greedy_count s p pi ce (si + 1) := by omega
    rw [heq]
    exact ih
  | case2 si h =>
    rw [pattern_greedy_count, dif_neg h]
    rw [not_and_or] at h
    rcases h with h | h
    · left
      omega
    · right
      simp only [Nat.add_zero]
      exact eq_false_of_ne_true h

/-! ## The claims -/

/-- C1: greedy repetition (atom followed by a star) first consumes the maximal
run of consecutive atom matches from the current position (conjuncts 1 to 3:
the loop head count is a run, and it is maximal), then tries the continuation
at that count, decrementing by one on each errorless continuation failure
(conjunct 6, where the failed attempt provably left the state unchanged) down
to zero; the first continuation success is returned (conjunct 4), exhausting
all counts without error yields no-match (conjunct 7), and an error from a
continuation attempt aborts the backtracking loop immediately and propagates
(conjunct 5).  Conjunct 8: the star operator dispatches to exactly this
greedy matcher. -/
theorem claim_C1 (s p : List Nat) :
    (∀ (ps : PState) (si pi ce : Nat) (hce : ce ≤ p.length),
      pattern_greedy_match s p ps si pi ce hce =
        pattern_greedy_loop s p ps si pi ce (pattern_greedy_count s p pi ce si) hce) ∧
    (∀ (si pi ce j : Nat), j < pattern_greedy_count s p pi ce si →
      si + j < s.length ∧ pattern_match_class_or_char (sget s (si + j)) p pi ce = true) ∧
    (∀ (si pi ce : Nat), s.length ≤ si + pattern_greedy_count s p pi ce si ∨
      pattern_match_class_or_char (sget s (si + pattern_greedy_count s p pi ce si)) p pi ce
        = false) ∧
    (∀ (ps ps1 : PState) (si pi ce k r : Nat) (hce : ce ≤ p.length),
      pattern_match_start s p ps (si + k) (ce + 1) = (ps1, some r) →
        pattern_greedy_loop s p ps si pi ce k hce = (ps1, some r)) ∧
    (∀ (ps ps1 : PState) (si pi ce k : Nat) (hce : ce ≤ p.length),
      pattern_match_start s p ps (si + k) (ce + 1) = (ps1, Option.none) →
        ps1.error ≠ PError.none →
        pattern_greedy_loop s p ps si pi ce k hce = (ps1, Option.none)) ∧
    (∀ (ps ps1 : PState) (si pi ce k : Nat) (hce : ce ≤ p.length),
      pattern_match_start s p ps (si + k) (ce + 1) = (ps1, Option.none) →
        ps1.error = PError.none → k ≠ 0 →
        pattern_greedy_loop s p ps si pi ce k hce =
          pattern_greedy_loop s p ps si pi ce (k - 1) hce) ∧
    (∀ (ps ps1 : PState) (si pi ce : Nat) (hce : ce ≤ p.length),
      pattern_match_start s p ps (si + 0) (ce + 1) = (ps1, Option.none) →
        ps1.error = PError.none →
        pattern_greedy_loop s p ps si pi ce 0 hce = (ps1, Option.none)) ∧
    (∀ (ps ps1 : PState) (si pi ce : Nat) (h : pi < p.length)
      (hfc : pattern_find_class_end p ps pi = (ps1, some ce)), pget p ce = 42 →
        pattern_match_rep_operator s p ps si pi h =
          pattern_greedy_match s p ps1 si pi ce (pattern_find_class_end_bounds h hfc).2) := by
  refine ⟨?_, ?_, ?_, ?_, ?_, ?_, ?_, ?_⟩
  · intro ps si pi ce hce
    rw [pattern_greedy_match]
  · intro si pi ce j hj
    exact pattern_greedy_count_run s p pi ce si j hj
  · intro si pi ce
    exact pattern_greedy_count_max s p pi ce si
  · intro ps ps1 si pi ce k r hce hrec
    rw [pattern_greedy_loop, hrec]
  · intro ps ps1 si pi ce k hce hrec herr
    rw [pattern_greedy_loop, hrec]
    simp only [if_pos herr]
  · intro ps ps1 si pi ce k hce hrec herr hk
    have hid := pattern_match_start_fail_id hrec herr
    rw [pattern_greedy_loop, hrec]
    simp only [if_neg (show ¬ps1.error ≠ PError.none by simp [herr]), dif_neg hk]
    rw [hid]
  · intro ps ps1 si pi ce hce hrec herr
    rw [pattern_greedy_loop, hrec]
    simp only [if_neg (show ¬ps1.error ≠ PError.none by simp [herr]), dite_true]
  · intro ps ps1 si pi ce h hfc h42
    rw [pattern_match_rep_operator_some hfc, if_neg (by rw [h42]; decide),
      if_neg (by rw [h42]; decide), if_pos h42]

/-- Witness for C1: the backtracking loop of the pattern a* on the empty
input returns the continuation success at consumed count 0. -/
theorem claim_C1_witness :
    pattern_greedy_loop [] [97, 42] pattern_init 0 0 1 0 (by decide) =
      (pattern_init, some 0) :=
  (claim_C1 [] [97, 42]).2.2.2.1 pattern_init pattern_init 0 0 1 0 0 (by decide)
    (by rw [pattern_match_start, dif_pos (by decide)])

/-- C2: capture rollback.  Conjunct 1: when the continuation attempted after
opening a capture fails, the pushed capture slot is popped, and the capture
list (hence its count) is exactly what it was before the open.  Conjunct 2:
when the continuation attempted after closing a capture fails, the closed
capture's size is reverted to the unfinished sentinel without popping, and
the capture list is exactly what it was before the close.  Conjunct 3: in
consequence, every failed descent leaves the capture list unchanged. -/
theorem claim_C2 :
    (∀ (s p : List Nat) (ps ps2 : PState) (si pi : Nat) (h : pi < p.length),
      ps.captures.length < PATTERN_MAX_CAPTURES →
      ((pget p (pi + 1) = 41 →
        pattern_match_start s p (pattern_push_cap ps ⟨si, -2⟩) si (pi + 2) =
          (ps2, Option.none) →
        pattern_start_capture s p ps si pi h = (pattern_pop_cap ps2, Option.none) ∧
          (pattern_pop_cap ps2).captures = ps.captures) ∧
       (¬pget p (pi + 1) = 41 →
        pattern_match_start s p (pattern_push_cap ps ⟨si, -1⟩) si (pi + 1) =
          (ps2, Option.none) →
        pattern_start_capture s p ps si pi h = (pattern_pop_cap ps2, Option.none) ∧
          (pattern_pop_cap ps2).captures = ps.captures))) ∧
    (∀ (s p : List Nat) (ps ps1 ps3 : PState) (si pi i : Nat) (h : pi < p.length),
      pattern_finish_captures p ps pi = (ps1, some i) →
      pattern_match_start s p
          (pattern_with_caps ps1 (pattern_close_cap ps1.captures i si)) si (pi + 1) =
        (ps3, Option.none) →
      pattern_end_capture s p ps si pi h =
        (pattern_with_caps ps3 (pattern_reopen_cap ps3.captures i), Option.none) ∧
        (pattern_with_caps ps3 (pattern_reopen_cap ps3.captures i)).captures = ps.captures ∧
        (pattern_with_caps ps3 (pattern_reopen_cap ps3.captures i)).captures.length =
          ps.captures.length) ∧
    (∀ (s p : List Nat) (ps ps1 : PState) (si pi : Nat),
      pattern_match_start s p ps si pi = (ps1, Option.none) → ps1.captures = ps.captures) := by
  refine ⟨?_, ?_, ?_⟩
  · intro s p ps ps2 si pi h hlt
    constructor
    · intro hpos hrec
      rw [pattern_start_capture, if_neg (by omega), dif_pos hpos, hrec]
      refine ⟨rfl, ?_⟩
      have hfr := pattern_match_start_frame hrec
      show ps2.captures.dropLast = ps.captures
      rw [hfr]
      exact List.dropLast_concat
    · intro hpos hrec
      rw [pattern_start_capture, if_neg (by omega), dif_neg hpos, hrec]
      refine ⟨rfl, ?_⟩
      have hfr := pattern_match_start_frame hrec
      show ps2.captures.dropLast = ps.captures
      rw [hfr]
      exact List.dropLast_concat
  · intro s p ps ps1 ps3 si pi i h hfin hrec
    obtain ⟨hps, hi1, hilen, hu⟩ := pattern_finish_captures_some hfin
    subst hps
    have hcap : (pattern_with_caps ps3 (pattern_reopen_cap ps3.captures i)).captures
        = ps1.captures := by
      show pattern_reopen_cap ps3.captures i = ps1.captures
      have hfr := pattern_match_start_frame hrec
      have : ps3.captures = pattern_close_cap ps1.captures i si := hfr
      rw [this, pattern_reopen_close si hilen hu]
    refine ⟨?_, hcap, by rw [hcap]⟩
    rw [pattern_end_capture, hfin]
    show (match pattern_match_start s p
        (pattern_with_caps ps1 (pattern_close_cap ps1.captures i si)) si (pi + 1) with
      | (ps3, some res) => (ps3, some res)
      | (ps3, Option.none) =>
        (pattern_with_caps ps3 (pattern_reopen_cap ps3.captures i), Option.none)) =
      (pattern_with_caps ps3 (pattern_reopen_cap ps3.captures i), Option.none)
    rw [hrec]
  · intro s p ps ps1 si pi hrec
    exact pattern_match_start_frame hrec

/-- Witness for C2: opening a capture on the pattern (a with empty input
fails the continuation and restores the initial one-slot capture stack. -/
theorem claim_C2_witness :
    pattern_start_capture [] [40, 97] pattern_init 0 0 (by decide) =
      (pattern_pop_cap (pattern_push_cap pattern_init ⟨0, -1⟩), Option.none) ∧
    (pattern_pop_cap (pattern_push_cap pattern_init ⟨0, -1⟩)).captures =
      pattern_init.captures := by
  have h := ((claim_C2).1 [] [40, 97] pattern_init
    (pattern_push_cap pattern_init ⟨0, -1⟩) 0 0 (by decide) (by decide)).2 (by decide)
  refine h ?_
  rw [pattern_match_start, dif_neg (by decide), dif_neg (by decide), dif_neg (by decide),
    dif_neg (by decide), dif_neg (by decide)]
  rw [pattern_match_rep_operator_some
    (show pattern_find_class_end [40, 97] (pattern_push_cap pattern_init ⟨0, -1⟩) 1 =
        (pattern_push_cap pattern_init ⟨0, -1⟩, some 2) from
      by rw [pattern_find_class_end]; simp [pget])]
  simp [pget, sget, pattern_match_start]

/-- C3: the first latched error wins.  Conjunct 1: pattern_set_error never
overwrites an already latched error (kind or location).  Conjunct 2: a whole
descent never modifies a latched error kind or location.  Conjunct 3: in the
unanchored search loop, an attempt whose post-check state carries an error
makes the loop stop and report exactly that state (no further start offsets
are tried). -/
theorem claim_C3 :
    (∀ (ps : PState) (e : PError) (l : Nat), ps.error ≠ PError.none →
      pattern_set_error ps e l = ps) ∧
    (∀ (s p : List Nat) (ps : PState) (si pi : Nat), ps.error ≠ PError.none →
      (pattern_match_start s p ps si pi).1.error = ps.error ∧
        (pattern_match_start s p ps si pi).1.error_loc = ps.error_loc) ∧
    (∀ (s p : List Nat) (ps ps1 : PState) (r : Option Nat) (si : Nat),
      pattern_match_start s p ps si 0 = (ps1, r) →
        (pattern_check_unclosed_captures p ps1).error ≠ PError.none →
        pattern_search_loop s p ps si =
          (PStatus.error, pattern_check_unclosed_captures p ps1)) := by
  refine ⟨?_, ?_, ?_⟩
  · intro ps e l h
    exact pattern_set_error_of_error h e l
  · intro s p ps si pi h
    exact pattern_match_start_error_latch h
  · intro s p ps ps1 r si hatt herr
    exact pattern_search_loop_step_error hatt herr

/-- Witness for C3: a state with a latched error is untouched by
pattern_set_error, and the search loop on the pattern consisting of a single
escape byte stops at the first offset with the incomplete-escape error. -/
theorem claim_C3_witness :
    pattern_set_error ⟨PError.maxCaptures, 5, []⟩ PError.unclosedClass 9 =
      (⟨PError.maxCaptures, 5, []⟩ : PState) ∧
    pattern_search_loop [] [37] pattern_init 0 =
      (PStatus.error, ⟨PError.incompleteEscape, 0, [⟨0, -1⟩]⟩) := by
  constructor
  · exact claim_C3.1 ⟨PError.maxCaptures, 5, []⟩ PError.unclosedClass 9 (by decide)
  · have hatt : pattern_match_start [] [37] pattern_init 0 0 =
        (⟨PError.incompleteEscape, 0, [⟨0, -1⟩]⟩, Option.none) := by
      rw [pattern_match_start, dif_neg (by decide), dif_neg (by decide), dif_neg (by decide),
        dif_neg (by decide), dif_pos (by decide)]
      rw [if_neg (by decide), if_neg (by decide), if_neg (by decide)]
      rw [pattern_match_rep_operator_none
        (show pattern_find_class_end [37] pattern_init 0 =
            ((⟨PError.incompleteEscape, 0, [⟨0, -1⟩]⟩ : PState), Option.none) from
          by rw [pattern_find_class_end]; simp [pget, pattern_set_error, pattern_init])]
    have hch : pattern_check_unclosed_captures [37] ⟨PError.incompleteEscape, 0, [⟨0, -1⟩]⟩ =
        ⟨PError.incompleteEscape, 0, [⟨0, -1⟩]⟩ :=
      pattern_check_unclosed_singleton [37] _ rfl
    have := claim_C3.2.2 [] [37] pattern_init ⟨PError.incompleteEscape, 0, [⟨0, -1⟩]⟩
      Option.none 0 hatt (by rw [hch]; decide)
    rw [hch] at this
    exact this

/-- C4: unanchored search.  For a pattern without a leading caret and a valid
start offset s0, the descent is attempted at offsets s0, s0 + 1, ..., up to
and including the input length, stopping at the first attempt that succeeds
or errors.  Conjunct 1: if every offset before k fails cleanly (leaving the
fresh state unchanged), then the call's outcome is decided by the attempt at
k: an error makes the call report it, and a success makes the call return
Match with capture slot 0 set to the span from k to the position returned by
the descent.  Conjunct 2: if every offset from s0 through the input length
fails cleanly, the call returns NoMatch. -/
theorem claim_C4 (s p : List Nat) (s0 : Nat) (hp : pget p 0 ≠ 94)
    (hs : s0 ≤ s.length) :
    (∀ k, s0 ≤ k → k ≤ s.length →
      (∀ j, s0 ≤ j → j < k →
        pattern_match_start s p pattern_init j 0 = (pattern_init, Option.none)) →
      ∀ (ps1 : PState) (r : Option Nat),
        pattern_match_start s p pattern_init k 0 = (ps1, r) →
        (((pattern_check_unclosed_captures p ps1).error ≠ PError.none →
          pattern_match_ex s p (s0 : Int) =
            (PStatus.error, pattern_check_unclosed_captures p ps1)) ∧
         ((pattern_check_unclosed_captures p ps1).error = PError.none →
          ∀ rv, r = some rv →
          pattern_match_ex s p (s0 : Int) = (PStatus.matched,
            pattern_with_caps (pattern_check_unclosed_captures p ps1)
              ((pattern_check_unclosed_captures p ps1).captures.set 0
                (Cap.mk k ((rv : Int) - (k : Int)))))))) ∧
    ((∀ k, s0 ≤ k → k ≤ s.length →
        pattern_match_start s p pattern_init k 0 = (pattern_init, Option.none)) →
      pattern_match_ex s p (s0 : Int) = (PStatus.no_match, pattern_init)) := by
  have hch : pattern_check_unclosed_captures p pattern_init = pattern_init :=
    pattern_check_unclosed_singleton p pattern_init rfl
  constructor
  · intro k hk hkL hall ps1 r hatt
    have hskip : pattern_search_loop s p pattern_init s0 =
        pattern_search_loop s p pattern_init k :=
      pattern_search_loop_skip s p k s0 k (by omega) hk hkL hall
    constructor
    · intro herr
      rw [pattern_match_ex_unanchored s p s0 hp, hskip]
      exact pattern_search_loop_step_error hatt herr
    · intro herr rv hrv
      subst hrv
      rw [pattern_match_ex_unanchored s p s0 hp, hskip]
      exact pattern_search_loop_step_match hatt (by simp [herr])
  · intro hall
    have hskip : pattern_search_loop s p pattern_init s0 =
        pattern_search_loop s p pattern_init s.length :=
      pattern_search_loop_skip s p s.length s0 s.length (by omega) hs le_rfl
        (fun j hj1 hj2 => hall j hj1 (by omega))
    rw [pattern_match_ex_unanchored s p s0 hp, hskip]
    have hend := pattern_search_loop_step_fail_end
      (hall s.length hs le_rfl) (by rw [hch]; simp [pattern_init]) le_rfl
    rw [hend, hch]

/-- Witness for C4: the empty pattern on the empty input matches at offset 0
with capture slot 0 equal to the empty span. -/
theorem claim_C4_witness :
    pattern_match_ex [] [] ((0 : Nat) : Int) =
      (PStatus.matched, ⟨PError.none, 0, [⟨0, 0⟩]⟩) := by
  have h := (claim_C4 [] [] 0 (by decide) (by decide)).1 0 le_rfl (by decide)
    (fun j hj1 hj2 => absurd hj2 (by omega)) pattern_init (some 0)
    (by rw [pattern_match_start, dif_pos (by decide)])
  have h2 := h.2 (by decide) 0 rfl
  rw [h2]
  decide

/-- C5: backreferences.  Conjunct 1 (with no error latched beforehand): the
backreference matcher latches an invalid-capture-index error at the given
location (the offset of the first digit) exactly when the index does not name
a currently closed capture: out of range, unfinished (size -1) or position
(size -2).  Conjunct 2: for a valid index it matches exactly when the input
from the current position has room for and equals the capture's bytes, and on
success consumes exactly the capture's length.  Conjunct 3: the descent
dispatches an escape followed by a digit to the backreference matcher, with
the error location pi + 1 (the first digit), the index parsed from the whole
digit run, and the continuation taken after the digit run from the advanced
input position. -/
theorem claim_C5 :
    (∀ (s : List Nat) (ps : PState) (si loc idx : Nat), ps.error = PError.none →
      ((idx ≥ ps.captures.length ∨ (ps.captures.getD idx ⟨0, 0⟩).size = -1 ∨
          (ps.captures.getD idx ⟨0, 0⟩).size = -2) ↔
        pattern_match_capture s ps si loc idx =
          ({ ps with error := PError.invalidCaptureIdx, error_loc := loc }, Option.none))) ∧
    (∀ (s : List Nat) (ps : PState) (si loc idx : Nat),
      ¬(idx ≥ ps.captures.length ∨ (ps.captures.getD idx ⟨0, 0⟩).size = -1 ∨
          (ps.captures.getD idx ⟨0, 0⟩).size = -2) →
        pattern_match_capture s ps si loc idx =
          (if s.length - si < (ps.captures.getD idx ⟨0, 0⟩).size.toNat ∨
              (s.drop si).take (ps.captures.getD idx ⟨0, 0⟩).size.toNat ≠
                (s.drop (ps.captures.getD idx ⟨0, 0⟩).start).take
                  (ps.captures.getD idx ⟨0, 0⟩).size.toNat then (ps, Option.none)
            else (ps, some (si + (ps.captures.getD idx ⟨0, 0⟩).size.toNat)))) ∧
    (∀ (s p : List Nat) (ps : PState) (si pi : Nat), pget p pi = 37 →
      isdigitB (pget p (pi + 1)) = true →
        pattern_match_start s p ps si pi =
          (match pattern_match_capture s ps si (pi + 1)
              (pattern_parse_digits p (pi + 1) 0) with
          | (ps1, Option.none) => (ps1, Option.none)
          | (ps1, some si2) =>
            pattern_match_start s p ps1 si2 (pi + (1 + pattern_digit_run p (pi + 1))))) := by
  refine ⟨?_, ?_, ?_⟩
  · intro s ps si loc idx herr
    constructor
    · intro hinv
      rw [pattern_match_capture, if_pos hinv, pattern_set_error_of_none herr]
    · intro heq
      by_contra hinv
      rw [pattern_match_capture, if_neg hinv] at heq
      split at heq
      all_goals
        have h2 := congrArg (fun x => x.1.error) heq
        simp only at h2
        rw [herr] at h2
        exact absurd h2 (by decide)
  · intro s ps si loc idx hval
    rw [pattern_match_capture, if_neg hval]
  · intro s p ps si pi h37 hdig
    rw [pattern_match_start, dif_neg (by rw [h37]; decide), dif_neg (by rw [h37]; decide),
      dif_neg (by rw [h37]; decide), dif_neg (by rw [h37]; decide), dif_pos h37,
      if_pos hdig]

/-- Witness for C5: an out-of-range backreference errors at the digit
position; a closed one-byte capture matches the repeated byte and consumes
it; the pattern consisting of an escape and the digit 1 errors with
invalid-capture-index at offset 1. -/
theorem claim_C5_witness :
    pattern_match_capture [] pattern_init 0 5 1 =
      (⟨PError.invalidCaptureIdx, 5, [⟨0, -1⟩]⟩, Option.none) ∧
    pattern_match_capture [97, 97] ⟨PError.none, 0, [⟨0, -1⟩, ⟨0, 1⟩]⟩ 1 9 1 =
      ((⟨PError.none, 0, [⟨0, -1⟩, ⟨0, 1⟩]⟩ : PState), some 2) ∧
    pattern_match_start [] [37, 49] pattern_init 0 0 =
      (⟨PError.invalidCaptureIdx, 1, [⟨0, -1⟩]⟩, Option.none) := by
  refine ⟨?_, ?_, ?_⟩
  · exact (claim_C5.1 [] pattern_init 0 5 1 rfl).mp (by decide)
  · rw [claim_C5.2.1 [97, 97] ⟨PError.none, 0, [⟨0, -1⟩, ⟨0, 1⟩]⟩ 1 9 1 (by decide)]
    decide
  · rw [claim_C5.2.2 [] [37, 49] pattern_init 0 0 (by decide) (by decide)]
    have hpd : pattern_parse_digits [37, 49] 1 0 = 1 := by
      rw [pattern_parse_digits, dif_pos (by decide), pattern_parse_digits,
        dif_neg (by decide)]
      decide
    rw [hpd, (claim_C5.1 [] pattern_init 0 1 1 rfl).mp (by decide)]
    rfl

/-- C6: a well-formed frontier assertion consumes no input (the continuation
runs from the same input offset) and succeeds exactly when the byte before
the current position (the zero byte at the start of the buffer) is not in the
bracket set while the byte at the current position (the zero byte at the end
of the buffer) is in it. -/
theorem claim_C6 (s p : List Nat) (ps : PState) (si pi : Nat) (h : pi < p.length)
    (hf : pget p (pi + 1) = 102) (hbr : pget p (pi + 2) = 91)
    (hcl : pget p (pattern_frontier_scan p (pi + 3)) = 93) :
    pattern_match_frontier s p ps si pi h =
      (if (!pattern_match_custom_class (if 0 < si then sget s (si - 1) else 0) p (pi + 2)
            (pattern_frontier_scan p (pi + 3)) &&
          pattern_match_custom_class (if si ≥ s.length then 0 else sget s si) p (pi + 2)
            (pattern_frontier_scan p (pi + 3))) = true then
        pattern_match_start s p ps si (pattern_frontier_scan p (pi + 3) + 1)
      else (ps, Option.none)) := by
  rw [pattern_match_frontier, if_neg (by rw [hf, hbr]; decide), dif_pos hcl]

/-- Witness for C6: the frontier pattern with class containing the letter a,
on the one-byte input a at offset 0: the previous byte is the zero byte
(outside the class), the current byte is in the class, so the assertion
passes and the empty continuation matches without consuming. -/
theorem claim_C6_witness :
    pattern_match_frontier [97] [37, 102, 91, 97, 93] pattern_init 0 0 (by decide) =
      (pattern_init, some 0) := by
  have hsc : pattern_frontier_scan [37, 102, 91, 97, 93] 3 = 4 := by
    rw [pattern_frontier_scan, dif_pos (by decide), if_neg (by decide),
      pattern_frontier_scan, dif_neg (by decide)]
  have h := claim_C6 [97] [37, 102, 91, 97, 93] pattern_init 0 0 (by decide)
    (by decide) (by decide) (by rw [hsc]; decide)
  rw [h, hsc]
  simp [pattern_match_custom_class, pattern_custom_class_loop, pattern_match_class,
    pattern_class_res, tolowerB, pattern_match_start, pget, sget, pattern_init]

/-- C7: the optional operator.  Conjunct 1: when the atom matches the current
byte and the consuming continuation succeeds, its result is returned (the
non-consuming alternative is never considered, so the operator never picks
the longer of two successes).  Conjunct 2: when the consuming continuation
fails without an error, the continuation is retried without consuming, from
the unchanged state.  Conjunct 3: when the atom does not match, only the
non-consuming continuation runs.  Conjuncts 4 and 5: the pattern a?b?l?
matches the whole input abl, and matches the empty string on empty input. -/
theorem claim_C7 :
    (∀ (s p : List Nat) (ps ps1 ps2 : PState) (si pi ce res : Nat) (h : pi < p.length),
      pattern_find_class_end p ps pi = (ps1, some ce) → pget p ce = 63 →
      (decide (si < s.length) && pattern_match_class_or_char (sget s si) p pi ce) = true →
      pattern_match_start s p ps1 (si + 1) (ce + 1) = (ps2, some res) →
      pattern_match_rep_operator s p ps si pi h = (ps2, some res)) ∧
    (∀ (s p : List Nat) (ps ps1 ps2 : PState) (si pi ce : Nat) (h : pi < p.length),
      pattern_find_class_end p ps pi = (ps1, some ce) → pget p ce = 63 →
      (decide (si < s.length) && pattern_match_class_or_char (sget s si) p pi ce) = true →
      pattern_match_start s p ps1 (si + 1) (ce + 1) = (ps2, Option.none) →
      ps2.error = PError.none →
      pattern_match_rep_operator s p ps si pi h =
        pattern_match_start s p ps1 si (ce + 1)) ∧
    (∀ (s p : List Nat) (ps ps1 : PState) (si pi ce : Nat) (h : pi < p.length),
      pattern_find_class_end p ps pi = (ps1, some ce) → pget p ce = 63 →
      ¬(decide (si < s.length) && pattern_match_class_or_char (sget s si) p pi ce) = true →
      pattern_match_rep_operator s p ps si pi h =
        pattern_match_start s p ps1 si (ce + 1)) ∧
    pattern_match [97, 98, 108] [97, 63, 98, 63, 108, 63] =
      (PStatus.matched, ⟨PError.none, 0, [⟨0, 3⟩]⟩) ∧
    pattern_match [] [97, 63, 98, 63, 108, 63] =
      (PStatus.matched, ⟨PError.none, 0, [⟨0, 0⟩]⟩) := by
  refine ⟨?_, ?_, ?_, ?_, ?_⟩
  · intro s p ps ps1 ps2 si pi ce res h hfc h63 hm hrec
    rw [pattern_match_rep_operator_some hfc, if_pos h63, if_pos hm, hrec]
  · intro s p ps ps1 ps2 si pi ce h hfc h63 hm hrec herr
    have hid := pattern_match_start_fail_id hrec herr
    rw [pattern_match_rep_operator_some hfc, if_pos h63, if_pos hm, hrec, hid]
  · intro s p ps ps1 si pi ce h hfc h63 hm
    rw [pattern_match_rep_operator_some hfc, if_pos h63, if_neg hm]
  · simp [pattern_match, pattern_match_ex, pattern_search_loop, pattern_match_start,
      pattern_match_rep_operator, pattern_find_class_end, pattern_match_class_or_char,
      pattern_check_unclosed_captures, pattern_init, pattern_with_caps, pget, sget]
  · simp [pattern_match, pattern_match_ex, pattern_search_loop, pattern_match_start,
      pattern_match_rep_operator, pattern_find_class_end, pattern_match_class_or_char,
      pattern_check_unclosed_captures, pattern_init, pattern_with_caps, pget, sget]

/-- Witness for C7: on empty input the optional atom a? does not match the
current byte, so only the non-consuming continuation runs and the whole
pattern matches the empty string. -/
theorem claim_C7_witness :
    pattern_match_rep_operator [] [97, 63] pattern_init 0 0 (by decide) =
      (pattern_init, some 0) := by
  rw [claim_C7.2.2.1 [] [97, 63] pattern_init pattern_init 0 0 1 (by decide)
    (by rw [pattern_find_class_end]; simp [pget]) (by decide) (by decide)]
  rw [pattern_match_start, dif_pos (by decide)]

/-- C8: the capture count never exceeds the configured maximum.  Conjunct 1:
the invariant is preserved by the whole descent.  Conjunct 2: opening a
capture when the count is already at the maximum latches a max-captures error
at the open paren position, returns no-match, and pushes nothing. -/
theorem claim_C8 :
    (∀ (s p : List Nat) (ps : PState) (si pi : Nat),
      ps.captures.length ≤ PATTERN_MAX_CAPTURES →
        (pattern_match_start s p ps si pi).1.captures.length ≤ PATTERN_MAX_CAPTURES) ∧
    (∀ (s p : List Nat) (ps : PState) (si pi : Nat) (h : pi < p.length),
      ps.captures.length ≥ PATTERN_MAX_CAPTURES →
        pattern_start_capture s p ps si pi h =
          (pattern_set_error ps PError.maxCaptures pi, Option.none) ∧
        (pattern_start_capture s p ps si pi h).1.captures = ps.captures) := by
  constructor
  · intro s p ps si pi hle
    exact pattern_match_start_count_le hle
  · intro s p ps si pi h hge
    constructor
    · rw [pattern_start_capture, if_pos hge]
    · rw [pattern_start_capture, if_pos hge]
      exact pattern_set_error_captures ps PError.maxCaptures pi

/-- Witness for C8: a state already holding 31 capture slots rejects a new
open with the max-captures error and unchanged captures, and the fresh state
keeps its count within the maximum across a full descent. -/
theorem claim_C8_witness :
    pattern_start_capture [] [40] ⟨PError.none, 0, List.replicate 31 ⟨0, 0⟩⟩ 0 0 (by decide) =
      (⟨PError.maxCaptures, 0, List.replicate 31 ⟨0, 0⟩⟩, Option.none) ∧
    (pattern_match_start [] [] pattern_init 0 0).1.captures.length ≤ PATTERN_MAX_CAPTURES := by
  constructor
  · rw [(claim_C8.2 [] [40] ⟨PError.none, 0, List.replicate 31 ⟨0, 0⟩⟩ 0 0 (by decide)
      (by decide)).1]
    decide
  · exact claim_C8.1 [] [] pattern_init 0 0 (by decide)

/-- Helper for C9: for a byte v in the lowercase letter range, tolowerB hits
v exactly on v itself and its uppercase partner. -/
theorem tolowerB_eq_iff (e v : Nat) (h1 : 97 ≤ v) (h2 : v ≤ 122) :
    tolowerB e = v ↔ e = v ∨ e = v - 32 := by
  unfold tolowerB
  split
  · next h =>
    simp only [Bool.and_eq_true, decide_eq_true_eq] at h
    omega
  · next h =>
    simp only [Bool.and_eq_true, decide_eq_true_eq] at h
    push_neg at h
    omega

/-- C9: escaping a byte that is neither a digit nor one of the class letters
(in either case) yields an ordinary literal match.  Conjunct 1: the class
matcher compares literally.  Conjunct 2: through the atom dispatcher, an
escape followed by such a byte matches an input byte exactly when it equals
that byte. -/
theorem claim_C9 (c e : Nat) (hdig : ¬(48 ≤ e ∧ e ≤ 57))
    (hcls : e ∉ ([97, 65, 99, 67, 100, 68, 108, 76, 112, 80, 115, 83, 117, 85, 119, 87,
      120, 88, 103, 71, 122, 90] : List Nat)) :
    pattern_match_class c e = decide (c = e) ∧
      (∀ (p : List Nat) (ptr ce : Nat), pget p ptr = 37 → pget p (ptr + 1) = e →
        pattern_match_class_or_char c p ptr ce = decide (c = e)) := by
  simp only [List.mem_cons, List.not_mem_nil, or_false, not_or] at hcls
  obtain ⟨q97, q65, q99, q67, q100, q68, q108, q76, q112, q80, q115, q83, q117, q85,
    q119, q87, q120, q88, q103, q71, q122, q90⟩ := hcls
  have hne : ∀ v, 97 ≤ v → v ≤ 122 → e ≠ v → e ≠ v - 32 → tolowerB e ≠ v := by
    intro v hv1 hv2 ha hb hcontra
    rcases (tolowerB_eq_iff e v hv1 hv2).mp hcontra with hx | hx
    · exact ha hx
    · exact hb hx
  have hmc : pattern_match_class c e = decide (c = e) := by
    rw [pattern_match_class,
      if_neg (hne 97 (by decide) (by decide) q97 q65),
      if_neg (hne 99 (by decide) (by decide) q99 q67),
      if_neg (hne 100 (by decide) (by decide) q100 q68),
      if_neg (hne 108 (by decide) (by decide) q108 q76),
      if_neg (hne 112 (by decide) (by decide) q112 q80),
      if_neg (hne 115 (by decide) (by decide) q115 q83),
      if_neg (hne 117 (by decide) (by decide) q117 q85),
      if_neg (hne 119 (by decide) (by decide) q119 q87),
      if_neg (hne 120 (by decide) (by decide) q120 q88),
      if_neg (hne 103 (by decide) (by decide) q103 q71),
      if_neg (hne 122 (by decide) (by decide) q122 q90)]
  refine ⟨hmc, ?_⟩
  intro p ptr ce h37 he
  rw [pattern_match_class_or_char, if_neg (by rw [h37]; decide), if_pos h37, he, hmc]

/-- Witness for C9: the escaped open paren matches exactly the open paren
byte, both directly and through the atom dispatcher. -/
theorem claim_C9_witness :
    pattern_match_class 40 40 = true ∧ pattern_match_class 41 40 = false ∧
      pattern_match_class_or_char 40 [37, 40] 0 2 = true := by
  have h40 := claim_C9 40 40 (by decide) (by decide)
  have h41 := claim_C9 41 40 (by decide) (by decide)
  refine ⟨?_, ?_, ?_⟩
  · rw [h40.1]
    decide
  · rw [h41.1]
    decide
  · rw [h40.2 [37, 40] 0 2 (by decide) (by decide)]
    decide

/-- Helper for C10: the balanced scan with equal open and close bytes never
finds a closing position (the open test precedes the close test, so the
nesting count only grows). -/
theorem pattern_balanced_scan_self (s : List Nat) (b : Nat) (si : Nat) (count : Int) :
    pattern_balanced_scan s b b si count = Option.none := by
  induction si, count using pattern_balanced_scan.induct s b b with
  | case1 si count h =>
    rw [pattern_balanced_scan, dif_pos h]
  | case2 si count h h2 ih =>
    rw [pattern_balanced_scan, dif_neg h, if_pos h2]
    exact ih
  | case3 si count h h2 h3 h4 =>
    exact absurd h3 h2
  | case4 si count h h2 h3 h4 ih =>
    exact absurd h3 h2
  | case5 si count h h2 h3 ih =>
    rw [pattern_balanced_scan, dif_neg h, if_neg h2, if_neg h3]
    exact ih

/-- C10: a balanced-match construct whose two delimiter bytes are present in
the pattern and equal can never succeed: it reports no-match with the state
untouched (never an error). -/
theorem claim_C10 (s p : List Nat) (ps : PState) (si pi : Nat) (h : pi < p.length)
    (h2 : pget p (pi + 2) ≠ 0) (h3 : pget p (pi + 3) = pget p (pi + 2)) :
    pattern_match_balanced s p ps si pi h = (ps, Option.none) := by
  have hg : ¬(pget p (pi + 2) = 0 ∨ pget p (pi + 3) = 0) := by
    rw [h3]
    push_neg
    exact ⟨h2, h2⟩
  by_cases hm : si ≥ s.length ∨ sget s si ≠ pget p (pi + 2)
  · rw [pattern_match_balanced, if_neg hg, if_pos hm]
  · rw [pattern_match_balanced, if_neg hg, if_neg hm, h3, pattern_balanced_scan_self]

/-- Witness for C10: the balanced pattern with both delimiters x never
matches the input xxx. -/
theorem claim_C10_witness :
    pattern_match_balanced [120, 120, 120] [37, 98, 120, 120] pattern_init 0 0 (by decide) =
      (pattern_init, Option.none) :=
  claim_C10 [120, 120, 120] [37, 98, 120, 120] pattern_init 0 0 (by decide) (by decide)
    (by decide)
